import Mathlib

/-!
Verification development for the accessibility code-reading pipeline of this
repository: the structural scanner (parseCode, calculateComplexity), the
navigation and search index (filterAndSortElements, performSearch,
navigateHistory), the audio cue mapper (audioMappings, playAudioForElement)
and the Braille transliteration engine (convertToBraille, calculateStats).

The definitions below are a shallow embedding of the TypeScript source.
JavaScript strings are modelled as Lean String / List Char; JavaScript
regular expressions are specialised to the fixed patterns appearing in the
source, with the backtracking order of the regex engine reproduced where it
matters and documented where a greedy step is deterministic.  JavaScript
numbers that only ever hold integers are modelled as Nat; the statistics
that hold fractional values are modelled as rationals (the claimed
properties are robust under this idealisation and each use is noted).
Array.prototype.sort (stable since ES2019) is modelled as the stable
insertion sort of Mathlib with the relation "comparator result is not
positive".
-/

/-! ### Small string and character helpers shared by every component -/

/-- Whitespace as matched by the JavaScript regex class backslash-s and by
String.prototype.trim, restricted to the ASCII range (the exotic Unicode
space code points never occur in the inputs of this development). -/
def jsIsSpace (c : Char) : Bool :=
  c = ' ' ∨ c = '\t' ∨ c = '\n' ∨ c = '\r' ∨ c = '\x0b' ∨ c = '\x0c'

/-- Word character, the JavaScript regex class backslash-w: [A-Za-z0-9_]. -/
def isWordChar (c : Char) : Bool :=
  decide (('a' ≤ c ∧ c ≤ 'z') ∨ ('A' ≤ c ∧ c ≤ 'Z') ∨ ('0' ≤ c ∧ c ≤ '9') ∨ c = '_')

/-- Model of String.prototype.trim: strip whitespace at both ends. -/
def jsTrim (s : String) : String :=
  String.mk (((s.data.dropWhile jsIsSpace).reverse.dropWhile jsIsSpace).reverse)

/-- Model of String.prototype.toLowerCase, ASCII range (all table keys and
all inputs the claims evaluate are ASCII; on characters outside the ASCII
letters both the model and the source leave the character unchanged or map
it outside every lookup table, with identical observable outcome). -/
def lowerStr (s : String) : String :=
  String.mk (s.data.map Char.toLower)

/-- Substring test on character lists: needle occurs somewhere in hay. -/
def listIncludes (needle hay : List Char) : Bool :=
  hay.tails.any (fun t => needle.isPrefixOf t)

/-- Model of String.prototype.includes. -/
def strIncludes (hay needle : String) : Bool :=
  listIncludes needle.data hay.data

/-- First index at which needle occurs in hay (String.prototype.indexOf). -/
def idxOfSub (hay needle : List Char) : Option Nat :=
  (List.range (hay.length + 1)).find? (fun i => needle.isPrefixOf (hay.drop i))

/-- Model of the source idiom "line.indexOf(x) + 1" (a 1-based column, with
the JavaScript not-found result -1 turning into 0). -/
def jsIndexOfPlusOne (hay needle : String) : Nat :=
  match idxOfSub hay.data needle.data with
  | some i => i + 1
  | none => 0

/-- Drop the maximal whitespace run (the greedy regex piece backslash-s-star). -/
def dropWs (cs : List Char) : List Char :=
  cs.dropWhile jsIsSpace

/-- The regex piece backslash-s-plus, greedy: requires at least one
whitespace character and consumes the maximal run.  In every pattern of the
source this piece is followed by a non-whitespace literal or class, so the
greedy maximal run is the unique viable choice. -/
def afterWs1 (cs : List Char) : Option (List Char) :=
  match cs with
  | c :: _ => if jsIsSpace c then some (dropWs cs) else none
  | [] => none

/-- Literal prefix step of a regex: consume lit if it is a prefix. -/
def litThen (lit : String) (cs : List Char) : Option (List Char) :=
  if lit.data.isPrefixOf cs then some (cs.drop lit.length) else none

/-- Split a character list at every occurrence of the separator (the
String.prototype.split behaviour for a one-character separator: the empty
input gives one empty piece, and separators at the ends give empty
pieces). -/
def splitOnChar (sep : Char) : List Char → List (List Char)
  | [] => [[]]
  | c :: t =>
    if c = sep then [] :: splitOnChar sep t
    else
      match splitOnChar sep t with
      | h :: r => (c :: h) :: r
      | [] => [[c]]

/-- Model of String.prototype.split with a one-character separator. -/
def jsSplit (sep : Char) (s : String) : List String :=
  (splitOnChar sep s.data).map String.mk

/-- Dropping a whitespace run never lengthens a list (termination helper). -/
theorem dropWs_length_le (cs : List Char) : (dropWs cs).length ≤ cs.length := by
  induction cs with
  | nil => simp [dropWs]
  | cons c t ih =>
    by_cases h : jsIsSpace c
    · simp only [dropWs, List.dropWhile] at ih ⊢
      rw [h]
      simpa using Nat.le_succ_of_le ih
    · simp only [dropWs, List.dropWhile] at ih ⊢
      rw [Bool.of_not_eq_true h]

/-! ### Scanner data model (interface CodeElement of the source) -/

/-- The closed element-kind enum of the scanner.  The constructors whose
source names collide with Lean keywords carry a K suffix; kindStr recovers
the exact source string. -/
inductive ElemKind where
  | function
  | classK
  | variableK
  | comment
  | importK
  | exportK
  | loop
  | conditional
deriving DecidableEq, Repr

/-- The source string of an element kind (the literal union type of the
CodeElement.type field in the source). -/
def kindStr : ElemKind → String
  | .function => "function"
  | .classK => "class"
  | .variableK => "variable"
  | .comment => "comment"
  | .importK => "import"
  | .exportK => "export"
  | .loop => "loop"
  | .conditional => "conditional"

/-- All scalar fields of interface CodeElement (everything except the
recursive children field).  Optional source fields are Option. -/
structure ElemCore where
  id : String
  type : ElemKind
  name : String
  line : Nat
  column : Nat
  endLine : Nat
  endColumn : Nat
  scope : String
  params : Option (List String)
  returnType : Option String
  visibility : Option String
  isStatic : Option Bool
  isAsync : Option Bool
  description : Option String
  complexity : Option Nat
deriving DecidableEq, Repr

/-- Interface CodeElement of the source: the scalar core plus the optional
recursive children list (used only by the grouping view). -/
inductive CodeElement where
  | mk (core : ElemCore) (children : Option (List CodeElement))

/-- The scalar part of an element. -/
def CodeElement.core : CodeElement → ElemCore
  | .mk c _ => c

/-- The optional children list of an element. -/
def CodeElement.children : CodeElement → Option (List CodeElement)
  | .mk _ ch => ch

instance : Inhabited ElemCore :=
  ⟨{ id := "", type := .function, name := "", line := 0, column := 0, endLine := 0
     endColumn := 0, scope := "", params := none, returnType := none, visibility := none
     isStatic := none, isAsync := none, description := none, complexity := none }⟩

instance : Inhabited CodeElement :=
  ⟨.mk default none⟩

/-! ### calculateComplexity

The source builds, for each keyword of a fixed ordered list (if, else,
while, for, switch, case, catch, &&, ||, ?), the dynamic regex
new RegExp("\\b" + keyword + "\\b", "gi") and adds the number of global
matches.  For the alphabetic keywords this is a case-insensitive
whole-word count.  The keyword text is not escaped, so the three
non-word entries degenerate:
* for "&&" the pattern is valid and is matched only when the pair is
  directly flanked by word characters (a word boundary needs a word
  character on exactly one side, and an ampersand is not one);
* for "||" the pattern is valid (an alternation with empty branches) and
  matches the empty string once at every position of the line, so the
  global count is line length + 1;
* for "?" the constructed pattern puts a quantifier directly on the
  word-boundary assertion: ECMAScript rejects a quantified assertion
  other than a lookahead, so new RegExp throws a SyntaxError ("nothing
  to repeat") before any matching happens.
The keyword loop always reaches the question-mark entry (it is a fixed
element of the list), so every call of calculateComplexity throws and
the counts accumulated for the earlier keywords are discarded.  The
embedding is Except-valued and folds the keyword list in source order,
erroring at the question-mark entry.
-/

/-- Is the character at index i of l a word character (false out of range)? -/
def wordAt (l : List Char) (i : Nat) : Bool :=
  match l.get? i with
  | some c => isWordChar c
  | none => false

/-- A regex word boundary at position i (between index i-1 and index i):
exactly one of the two neighbouring characters is a word character. -/
def boundaryAt (l : List Char) (i : Nat) : Bool :=
  (if i = 0 then false else wordAt l (i - 1)) != wordAt l i

/-- Case-insensitive whole-word global match count (the gi-flagged
boundary-delimited keyword regex of the source; matches cannot overlap
because each is flanked by non-word characters). -/
def countWordTokenCI (kw : String) (l : List Char) : Nat :=
  ((List.range (l.length + 1)).filter (fun i =>
    kw.data.isPrefixOf ((l.map Char.toLower).drop i) &&
    boundaryAt l i && boundaryAt l (i + kw.length))).length

/-- Case-sensitive whole-word global match count (used by the un-flagged
keyword statistic regex of calculateStats). -/
def countWordTokenCS (kw : String) (l : List Char) : Nat :=
  ((List.range (l.length + 1)).filter (fun i =>
    kw.data.isPrefixOf (l.drop i) &&
    boundaryAt l i && boundaryAt l (i + kw.length))).length

/-- Global match count of the boundary-delimited double-ampersand pattern:
an ampersand pair directly flanked by word characters on both sides. -/
def countAmpAmp (l : List Char) : Nat :=
  ((List.range (l.length + 1)).filter (fun i =>
    "&&".data.isPrefixOf (l.drop i) &&
    boundaryAt l i && boundaryAt l (i + 2))).length

/-- The complexityKeywords list of the source, in source order. -/
def complexityKeywords : List String :=
  ["if", "else", "while", "for", "switch", "case", "catch", "&&", "||", "?"]

/-- The global match count of the boundary-delimited pattern of one
keyword, or none when the pattern does not compile: a case-insensitive
whole-word count for the alphabetic keywords, the flanked-pair count for
the double ampersand, one empty match per position for the double bar,
and no value for the question mark, whose regex construction throws a
SyntaxError before any matching. -/
def keywordPatternCount (kw : String) (l : List Char) : Option Nat :=
  if kw = "&&" then some (countAmpAmp l)
  else if kw = "||" then some (l.length + 1)
  else if kw = "?" then none
  else some (countWordTokenCI kw l)

/-- The SyntaxError raised by new RegExp on the quantified-boundary
pattern of the question-mark keyword (the message text is engine
specific; the model fixes one representative). -/
def regexSyntaxErrorMsg : String :=
  "SyntaxError: Invalid regular expression: nothing to repeat"

/-- Embedding of calculateComplexity: fold the keyword list in source
order, starting from 1 and adding each keyword's global match count,
until the question-mark entry, whose regex construction throws — so no
call ever returns normally. -/
def calculateComplexity (line : String) : Except String Nat :=
  complexityKeywords.foldlM (fun acc kw =>
    match keywordPatternCount kw line.data with
    | some n => Except.ok (acc + n)
    | none => Except.error regexSyntaxErrorMsg) 1

/-- Every call of calculateComplexity throws: the keyword loop always
reaches the invalid question-mark pattern. -/
theorem calculateComplexity_error (line : String) :
    calculateComplexity line = Except.error regexSyntaxErrorMsg := rfl

/-! ### Line classifiers of parseCode

Each classifier embeds one anchored regex of the source.  The nesting of
option-matches reproduces the backtracking order of the regex engine:
an optional greedy group is tried first with the group taken and then,
on failure of the continuation, with the group empty.  Greedy pieces whose
shorter alternatives can never rescue a failed continuation (argued in the
comment of each classifier) are implemented as their maximal run.
-/

/-- Result of the function-definition regex: the captured name, whether an
async marker (group 1 or group 4) was captured, and the raw text of the
parameter group 5. -/
structure FuncMatch where
  name : String
  isAsync : Bool
  paramsRaw : String
deriving DecidableEq, Repr

/-- The optional regex piece "async" + mandatory whitespace (groups 1 and 4
of the function regex): consumed only when both parts are present. -/
def tryAsyncWs (cs : List Char) : Option (List Char) :=
  litThen "async" cs >>= afterWs1

/-- Group 2 of the function regex: one of the declarator keywords followed
by mandatory whitespace, tried in the source alternation order.  The four
keywords start with pairwise distinct characters, so at most one
alternative can consume input. -/
def tryDeclKw (cs : List Char) : Option (List Char) :=
  (litThen "function" cs >>= afterWs1) <|> (litThen "const" cs >>= afterWs1) <|>
  (litThen "let" cs >>= afterWs1) <|> (litThen "var" cs >>= afterWs1)

/-- The parenthesis piece of the function regex: a literal opening
parenthesis, the greedy group 5 of non-closing-parenthesis characters, and
a literal closing parenthesis.  Because the group cannot span a closing
parenthesis, the greedy maximal run is the unique viable choice. -/
def parenParams (cs : List Char) : Option String :=
  match cs with
  | '(' :: v =>
    let ps := v.takeWhile (fun c => c ≠ ')')
    if (v.drop ps.length).head? = some ')' then some (String.mk ps) else none
  | _ => none

/-- The mandatory tail of the function regex after the optional declarator:
the greedy word-run name (group 3), optional whitespace, an optional equals
or colon, optional whitespace, the optional async group 4, and the
parenthesised parameter group.  The word run is taken maximally: a match
obtained from a shorter run forces the continuation to consume the rest of
the run through the async alternative of group 4, in which case the
maximal run also matches with group 4 empty; the optional equals or colon
and the whitespace runs are likewise deterministic because the pieces that
follow them reject the characters they would have to give back. -/
def funcCore (cs : List Char) : Option (String × Bool × String) :=
  let nm := cs.takeWhile isWordChar
  if nm.isEmpty then none
  else
    let r1 := dropWs (cs.drop nm.length)
    let r2 := match r1 with
      | c :: t => if c = '=' ∨ c = ':' then t else r1
      | [] => r1
    let r3 := dropWs r2
    match tryAsyncWs r3 with
    | some r4 =>
      match parenParams r4 with
      | some ps => some (String.mk nm, true, ps)
      | none => (parenParams r3).map (fun ps => (String.mk nm, false, ps))
    | none => (parenParams r3).map (fun ps => (String.mk nm, false, ps))

/-- Group 2 with engine order: the declarator alternatives first, then the
empty alternative. -/
def withDeclKw (cs : List Char) : Option (String × Bool × String) :=
  match tryDeclKw cs with
  | some r =>
    match funcCore r with
    | some x => some x
    | none => funcCore cs
  | none => funcCore cs

/-- Embedding of the function-definition regex of parseCode, anchored at
the start of the trimmed line.  Returns the name (group 3), the combined
async flag (group 1 or group 4 captured) and the raw parameter text. -/
def matchFunction (cs : List Char) : Option FuncMatch :=
  match tryAsyncWs cs with
  | some r =>
    match withDeclKw r with
    | some (n, _, ps) => some ⟨n, true, ps⟩
    | none => (withDeclKw cs).map (fun x => ⟨x.1, x.2.1, x.2.2⟩)
  | none => (withDeclKw cs).map (fun x => ⟨x.1, x.2.1, x.2.2⟩)

/-- Parameter post-processing of the function branch: the raw group is
split on commas, and each piece is trimmed, cut at the first colon or
equals, and trimmed again.  An empty raw group (falsy in the source) gives
the empty parameter list. -/
def splitParams (raw : String) : List String :=
  if raw = "" then []
  else (jsSplit ',' raw).map (fun p =>
    jsTrim (String.mk ((jsTrim p).data.takeWhile (fun c => ¬(c = ':' ∨ c = '=')))))

/-- Embedding of the class-definition regex: optional export and abstract
prefixes (each keyword plus mandatory whitespace; when the keyword is
present without its whitespace the group is empty and the following
literal cannot match, as in the engine), the class keyword with mandatory
whitespace, the greedy name, and the optional extends group whose captured
base-class word is returned.  The implements group 5 is optional and its
capture is never read by the source, so it does not affect the result. -/
def matchClass (cs : List Char) : Option (String × Option String) :=
  let s1 := match litThen "export" cs >>= afterWs1 with
    | some r => r
    | none => cs
  let s2 := match litThen "abstract" s1 >>= afterWs1 with
    | some r => r
    | none => s1
  match litThen "class" s2 >>= afterWs1 with
  | none => none
  | some s3 =>
    let nm := s3.takeWhile isWordChar
    if nm.isEmpty then none
    else
      let s4 := s3.drop nm.length
      let ext :=
        match afterWs1 s4 >>= litThen "extends" with
        | some v =>
          match afterWs1 v with
          | some w =>
            let ew := w.takeWhile isWordChar
            if ew.isEmpty then none else some (String.mk ew)
          | none => none
        | none => none
      some (String.mk nm, ext)

/-- Embedding of the variable-declaration regex: one declarator keyword
with mandatory whitespace, the greedy name, and the optional initialiser
group (optional whitespace, an equals or colon, optional whitespace, and a
non-empty greedy rest).  On the trimmed lines the scanner feeds this
classifier, an empty rest after the separator means the line ended, so the
initialiser group is empty exactly when the model returns none. -/
def matchVariable (cs : List Char) : Option (String × String × Option String) :=
  let tryKw := fun (kw : String) => (litThen kw cs >>= afterWs1).map (fun r => (kw, r))
  match tryKw "const" <|> tryKw "let" <|> tryKw "var" with
  | none => none
  | some (kw, r) =>
    let nm := r.takeWhile isWordChar
    if nm.isEmpty then none
    else
      let u := dropWs (r.drop nm.length)
      let init := match u with
        | c :: t =>
          if c = ':' ∨ c = '=' then
            let v := dropWs t
            if v.isEmpty then none else some (String.mk v)
          else none
        | [] => none
      some (kw, String.mk nm, init)

/-- Is the character one of the two quote characters of the import regex? -/
def isQuoteChar (c : Char) : Bool :=
  c = '"' ∨ c = '\x27'

/-- The tail of the import regex after group 1: mandatory whitespace, the
from keyword, mandatory whitespace, an opening quote, the greedy non-empty
module group 2 and a closing quote (the pattern is not end-anchored, so
the greedy group 2 ends at the last quote character with at least one
character before it). -/
def fromCont (u : List Char) : Option String :=
  match afterWs1 u >>= litThen "from" with
  | none => none
  | some w =>
    match afterWs1 w with
    | none => none
    | some x =>
      match x with
      | q :: y =>
        if isQuoteChar q then
          match (List.range y.length).reverse.find?
              (fun j => decide (1 ≤ j) && isQuoteChar (y.getD j ' ')) with
          | some j => some (String.mk (y.take j))
          | none => none
        else none
      | [] => none

/-- Embedding of the import regex: the import keyword, mandatory
whitespace, the greedy non-empty group 1 (imported items; the engine keeps
the longest prefix whose continuation matches, reproduced by searching the
split positions from the right), and the from-module tail.  Returns
(imported items, module). -/
def matchImport (cs : List Char) : Option (String × String) :=
  match litThen "import" cs >>= afterWs1 with
  | none => none
  | some t =>
    match (List.range t.length).reverse.find?
        (fun p => decide (1 ≤ p) && (fromCont (t.drop p)).isSome) with
    | some p => (fromCont (t.drop p)).map (fun m => (String.mk (t.take p), m))
    | none => none

/-- Embedding of the export regex: the export keyword, mandatory
whitespace, the optional default keyword with mandatory whitespace, and
the greedy non-empty group 2.  Returns (default captured, group 2).  The
fallback arm with the default group given back reproduces the engine
backtracking when nothing follows the default keyword. -/
def matchExport (cs : List Char) : Option (Bool × String) :=
  match litThen "export" cs >>= afterWs1 with
  | none => none
  | some t =>
    if t.isEmpty then none
    else
      match litThen "default" t >>= afterWs1 with
      | some u => if u.isEmpty then some (false, String.mk t) else some (true, String.mk u)
      | none => some (false, String.mk t)

/-- Embedding of the loop regex: one of the three loop keywords (tried in
alternation order; their first characters are pairwise distinct), optional
whitespace and a literal opening parenthesis.  Returns the keyword. -/
def matchLoop (cs : List Char) : Option String :=
  ["for", "while", "do"].findSome? (fun kw =>
    match litThen kw cs with
    | some r => if (dropWs r).head? = some '(' then some kw else none
    | none => none)

/-- Embedding of the conditional regex: the alternation in source order
(if, else-whitespace-if, else, switch, case); the trailing optional
whitespace and optional opening bracket always match, so the alternation
alone decides.  Returns the text captured by group 1 (for the
else-whitespace-if alternative this includes the actual whitespace run). -/
def matchConditional (cs : List Char) : Option String :=
  if "if".data.isPrefixOf cs then some "if"
  else
    match litThen "else" cs with
    | some r =>
      let ws := r.takeWhile jsIsSpace
      if ¬ws.isEmpty ∧ "if".data.isPrefixOf (r.drop ws.length) then
        some (String.mk ("else".data ++ ws ++ "if".data))
      else some "else"
    | none =>
      if "switch".data.isPrefixOf cs then some "switch"
      else if "case".data.isPrefixOf cs then some "case"
      else none

/-! ### The scan pass (parseCode) -/

/-- Capitalise the first character (the charAt-toUpperCase-plus-slice idiom
used for loop and conditional descriptions and for group titles). -/
def capitalizeStr (s : String) : String :=
  match s.data with
  | [] => ""
  | c :: t => String.mk (c.toUpper :: t)

/-- The mutable scan state of parseCode: the current single-slot scope, the
running element-id counter, and the elements pushed so far. -/
structure ScanState where
  currentScope : String
  elementId : Nat
  acc : List CodeElement

/-- The global replace of the comment-marker regex applied to a comment
line before truncation.  The alternation is: the two-slash marker with
following whitespace, anchored at the string start only; a star-slash
pair; a star with following whitespace.  The scan keeps every character no
alternative matches. -/
def replaceCommentMarks (atStart : Bool) (cs : List Char) : List Char :=
  match cs with
  | '/' :: '/' :: t =>
    if atStart then replaceCommentMarks false (dropWs t)
    else '/' :: replaceCommentMarks false ('/' :: t)
  | '*' :: '/' :: t => replaceCommentMarks false t
  | '*' :: t => replaceCommentMarks false (dropWs t)
  | c :: t => c :: replaceCommentMarks false t
  | [] => []
  termination_by cs.length
  decreasing_by
  · have := dropWs_length_le t; simp; omega
  · simp
  · simp; omega
  · have := dropWs_length_le t; simp; omega
  · simp

/-- The comment branch of parseCode: push a comment element named by the
marker-stripped, 50-character-truncated line text. -/
def commentStep (trimmed line : String) (lineIndex : Nat) (st : ScanState) : ScanState :=
  let e : CodeElement := .mk {
    id := "comment-" ++ toString st.elementId
    type := .comment
    name := (String.mk (replaceCommentMarks true trimmed.data)).take 50 ++
            (if trimmed.length > 50 then "..." else "")
    line := lineIndex + 1
    column := jsIndexOfPlusOne line trimmed
    endLine := lineIndex + 1
    endColumn := line.length
    scope := st.currentScope
    params := none, returnType := none, visibility := none
    isStatic := none, isAsync := none
    description := some "Code comment"
    complexity := none } none
  { currentScope := st.currentScope, elementId := st.elementId + 1, acc := st.acc ++ [e] }

/-- The function-detection branch: on a match, the element literal is
built — which evaluates calculateComplexity and therefore throws.  Had
the complexity call returned, the element would be pushed and the
single-slot scope updated to the function name. -/
def functionStep (trimmed line : String) (lineIndex : Nat) (st : ScanState) :
    Except String ScanState :=
  match matchFunction trimmed.data with
  | none => Except.ok st
  | some m =>
    match calculateComplexity trimmed with
    | Except.error err => Except.error err
    | Except.ok cpx =>
    let params := splitParams m.paramsRaw
    let e : CodeElement := .mk {
      id := "function-" ++ toString st.elementId
      type := .function
      name := m.name
      line := lineIndex + 1
      column := jsIndexOfPlusOne line m.name
      endLine := lineIndex + 1
      endColumn := line.length
      scope := st.currentScope
      params := some params
      returnType := none, visibility := none, isStatic := none
      isAsync := some m.isAsync
      description := some ("Function with " ++ toString params.length ++ " parameter" ++
                           (if params.length ≠ 1 then "s" else ""))
      complexity := some cpx } none
    Except.ok { currentScope := m.name, elementId := st.elementId + 1, acc := st.acc ++ [e] }

/-- The class-detection branch: on a match, the element literal is built
— which evaluates calculateComplexity and therefore throws.  Had the
complexity call returned, the class element would be pushed (with an
empty children list, as the source does) and the scope updated. -/
def classStep (trimmed line : String) (lineIndex : Nat) (st : ScanState) :
    Except String ScanState :=
  match matchClass trimmed.data with
  | none => Except.ok st
  | some (className, extendsClass) =>
    match calculateComplexity trimmed with
    | Except.error err => Except.error err
    | Except.ok cpx =>
    let e : CodeElement := .mk {
      id := "class-" ++ toString st.elementId
      type := .classK
      name := className
      line := lineIndex + 1
      column := jsIndexOfPlusOne line className
      endLine := lineIndex + 1
      endColumn := line.length
      scope := st.currentScope
      params := none, returnType := none, visibility := none
      isStatic := none, isAsync := none
      description := some ("Class" ++ (match extendsClass with
        | some x => " extending " ++ x
        | none => ""))
      complexity := some cpx } (some [])
    Except.ok { currentScope := className, elementId := st.elementId + 1, acc := st.acc ++ [e] }

/-- The variable-detection branch: push a variable element; the scope slot
is not changed. -/
def variableStep (trimmed line : String) (lineIndex : Nat) (st : ScanState) : ScanState :=
  match matchVariable trimmed.data with
  | none => st
  | some (variableType, variableName, initialValue) =>
    let e : CodeElement := .mk {
      id := "variable-" ++ toString st.elementId
      type := .variableK
      name := variableName
      line := lineIndex + 1
      column := jsIndexOfPlusOne line variableName
      endLine := lineIndex + 1
      endColumn := line.length
      scope := st.currentScope
      params := none, returnType := none, visibility := none
      isStatic := none, isAsync := none
      description := some (variableType ++ " variable" ++ (match initialValue with
        | some iv => " initialized with " ++ iv.take 20 ++ (if iv.length > 20 then "..." else "")
        | none => ""))
      complexity := some 1 } none
    { currentScope := st.currentScope, elementId := st.elementId + 1, acc := st.acc ++ [e] }

/-- The import-detection branch: push an import element whose scope is the
hard-coded global sentinel, regardless of the current scope slot. -/
def importStep (trimmed line : String) (lineIndex : Nat) (st : ScanState) : ScanState :=
  match matchImport trimmed.data with
  | none => st
  | some (importedItems, fromModule) =>
    let e : CodeElement := .mk {
      id := "import-" ++ toString st.elementId
      type := .importK
      name := if importedItems.length > 30 then importedItems.take 30 ++ "..." else importedItems
      line := lineIndex + 1
      column := 1
      endLine := lineIndex + 1
      endColumn := line.length
      scope := "global"
      params := none, returnType := none, visibility := none
      isStatic := none, isAsync := none
      description := some ("Import from " ++ fromModule)
      complexity := some 1 } none
    { currentScope := st.currentScope, elementId := st.elementId + 1, acc := st.acc ++ [e] }

/-- The export-detection branch: push an export element in the current
scope. -/
def exportStep (trimmed line : String) (lineIndex : Nat) (st : ScanState) : ScanState :=
  match matchExport trimmed.data with
  | none => st
  | some (isDefault, exportedItem) =>
    let e : CodeElement := .mk {
      id := "export-" ++ toString st.elementId
      type := .exportK
      name := if exportedItem.length > 30 then exportedItem.take 30 ++ "..." else exportedItem
      line := lineIndex + 1
      column := 1
      endLine := lineIndex + 1
      endColumn := line.length
      scope := st.currentScope
      params := none, returnType := none, visibility := none
      isStatic := none, isAsync := none
      description := some ((if isDefault then "Default " else "") ++ "export")
      complexity := some 1 } none
    { currentScope := st.currentScope, elementId := st.elementId + 1, acc := st.acc ++ [e] }

/-- The loop-detection branch: on a match, the element literal evaluates
calculateComplexity and therefore throws; otherwise a loop element in the
current scope would be pushed. -/
def loopStep (trimmed line : String) (lineIndex : Nat) (st : ScanState) :
    Except String ScanState :=
  match matchLoop trimmed.data with
  | none => Except.ok st
  | some loopType =>
    match calculateComplexity trimmed with
    | Except.error err => Except.error err
    | Except.ok cpx =>
    let e : CodeElement := .mk {
      id := "loop-" ++ toString st.elementId
      type := .loop
      name := loopType ++ " loop"
      line := lineIndex + 1
      column := 1
      endLine := lineIndex + 1
      endColumn := line.length
      scope := st.currentScope
      params := none, returnType := none, visibility := none
      isStatic := none, isAsync := none
      description := some (capitalizeStr loopType ++ " loop statement")
      complexity := some cpx } none
    Except.ok { currentScope := st.currentScope, elementId := st.elementId + 1
                acc := st.acc ++ [e] }

/-- The conditional-detection branch: on a match, the element literal
evaluates calculateComplexity and therefore throws; otherwise a
conditional element in the current scope would be pushed. -/
def condStep (trimmed line : String) (lineIndex : Nat) (st : ScanState) :
    Except String ScanState :=
  match matchConditional trimmed.data with
  | none => Except.ok st
  | some conditionalType =>
    match calculateComplexity trimmed with
    | Except.error err => Except.error err
    | Except.ok cpx =>
    let e : CodeElement := .mk {
      id := "conditional-" ++ toString st.elementId
      type := .conditional
      name := conditionalType ++ " statement"
      line := lineIndex + 1
      column := 1
      endLine := lineIndex + 1
      endColumn := line.length
      scope := st.currentScope
      params := none, returnType := none, visibility := none
      isStatic := none, isAsync := none
      description := some (capitalizeStr conditionalType ++ " conditional")
      complexity := some cpx } none
    Except.ok { currentScope := st.currentScope, elementId := st.elementId + 1
                acc := st.acc ++ [e] }

/-- One iteration of the line loop of parseCode: a blank or comment line
returns early (pushing a comment element when a marker is present); every
other line runs the seven classifiers in source order, each pushing its
own element when it fires.  An exception thrown by a classifier (the
complexity call of the function, class, loop and conditional branches)
aborts the iteration and propagates. -/
def parseLine (line : String) (lineIndex : Nat) (st : ScanState) :
    Except String ScanState :=
  let trimmed := jsTrim line
  if trimmed = "" ∨ "//".data.isPrefixOf trimmed.data ∨ "/*".data.isPrefixOf trimmed.data then
    if "//".data.isPrefixOf trimmed.data ∨ "/*".data.isPrefixOf trimmed.data then
      Except.ok (commentStep trimmed line lineIndex st)
    else Except.ok st
  else
    match functionStep trimmed line lineIndex st with
    | Except.error err => Except.error err
    | Except.ok st1 =>
      match classStep trimmed line lineIndex st1 with
      | Except.error err => Except.error err
      | Except.ok st2 =>
        match loopStep trimmed line lineIndex
            (exportStep trimmed line lineIndex
              (importStep trimmed line lineIndex
                (variableStep trimmed line lineIndex st2))) with
        | Except.error err => Except.error err
        | Except.ok st6 => condStep trimmed line lineIndex st6

/-- The indexed traversal of the split lines (the forEach of the source;
an exception raised in the body aborts the traversal and propagates). -/
def parseLines : Nat → List String → ScanState → Except String ScanState
  | _, [], st => Except.ok st
  | idx, l :: ls, st =>
    match parseLine l idx st with
    | Except.error err => Except.error err
    | Except.ok st' => parseLines (idx + 1) ls st'

/-- Embedding of parseCode: split the source text on newlines and run the
line loop from the global scope.  Any line reaching the function, class,
loop or conditional branch makes the loop throw (every complexity call
raises a SyntaxError) and the exception propagates out of parseCode;
otherwise the accumulated elements are returned sorted by start line (the
final stable sort of the source; elements are pushed in nondecreasing
line order, so the sort is the identity, proved below). -/
def parseCode (sourceCode : String) : Except String (List CodeElement) :=
  let lines := jsSplit '\n' sourceCode
  match parseLines 0 lines { currentScope := "global", elementId := 0, acc := [] } with
  | Except.error err => Except.error err
  | Except.ok final =>
    Except.ok (List.insertionSort (fun a b => a.core.line ≤ b.core.line) final.acc)

/-! ### Navigation settings and the navigation index (filterAndSortElements) -/

/-- The sortBy union of interface NavigationSettings. -/
inductive SortKey where
  | name
  | line
  | complexity
  | type
deriving DecidableEq, Repr

/-- The sortOrder union of interface NavigationSettings. -/
inductive SortOrder where
  | asc
  | desc
deriving DecidableEq, Repr

/-- Interface NavigationSettings of the source (filterTypes holds the kind
strings, as in the source where it is a string array). -/
structure NavigationSettings where
  showLineNumbers : Bool
  showScope : Bool
  showComplexity : Bool
  groupByType : Bool
  sortBy : SortKey
  sortOrder : SortOrder
  filterTypes : List String
  maxDepth : Nat
  enableAudioFeedback : Bool
  enableHapticFeedback : Bool
  autoFocus : Bool
  persistState : Bool
deriving Repr

/-- The initial settings value of the component state. -/
def defaultNavigationSettings : NavigationSettings :=
  { showLineNumbers := true, showScope := true, showComplexity := false
    groupByType := false, sortBy := .line, sortOrder := .asc, filterTypes := []
    maxDepth := 5, enableAudioFeedback := true, enableHapticFeedback := false
    autoFocus := true, persistState := true }

/-- Three-way string comparison standing in for localeCompare.  The source
compares element names and kind strings with the default locale; the model
uses code-point lexicographic order, which agrees with the default
collation on the ASCII identifiers this development evaluates. -/
def strCompare (a b : String) : Int :=
  if a < b then -1 else if b < a then 1 else 0

/-- The comparator body of the sort inside filterAndSortElements: the
switch over sortBy, negated for descending order. -/
def navComparator (settings : NavigationSettings) (a b : CodeElement) : Int :=
  let comparison : Int :=
    match settings.sortBy with
    | .name => strCompare a.core.name b.core.name
    | .line => (a.core.line : Int) - (b.core.line : Int)
    | .complexity => ((a.core.complexity.getD 0 : Nat) : Int) - ((b.core.complexity.getD 0 : Nat) : Int)
    | .type => strCompare (kindStr a.core.type) (kindStr b.core.type)
  match settings.sortOrder with
  | .desc => -comparison
  | .asc => comparison

/-- The search filter predicate of filterAndSortElements: name or optional
description contains the lowercased query. -/
def navSearchPred (searchQuery : String) (e : CodeElement) : Bool :=
  strIncludes (lowerStr e.core.name) (lowerStr searchQuery) ||
  (match e.core.description with
   | some d => strIncludes (lowerStr d) (lowerStr searchQuery)
   | none => false)

/-- Kind strings present in the sorted list, in order of first occurrence
(the key insertion order of the grouping object of the source). -/
def kindsInOrder (l : List CodeElement) : List ElemKind :=
  l.foldl (fun acc e => if e.core.type ∈ acc then acc else acc ++ [e.core.type]) []

/-- One synthetic group element of the grouping view, carrying its members
as children. -/
def groupElem (k : ElemKind) (members : List CodeElement) : CodeElement :=
  .mk {
    id := "group-" ++ kindStr k
    type := k
    name := capitalizeStr (kindStr k) ++ "s (" ++ toString members.length ++ ")"
    line := 0, column := 0, endLine := 0, endColumn := 0
    scope := "group"
    params := none, returnType := none, visibility := none
    isStatic := none, isAsync := none
    description := some ("Group of " ++ toString members.length ++ " " ++ kindStr k ++ "s")
    complexity := none } (some members)

/-- Embedding of filterAndSortElements.  The first component is the value
the source returns (the visible sequence).  The second component models
the caller's array after the call: the source assigns the input array to
filtered without copying, so when neither the kind filter nor the search
filter runs, the in-place Array.prototype.sort reorders the caller's
array; when either filter runs, Array.prototype.filter allocates a fresh
array and the input is left untouched. -/
def filterAndSortElements (settings : NavigationSettings) (searchQuery : String)
    (elements : List CodeElement) : List CodeElement × List CodeElement :=
  let kindFiltered :=
    if settings.filterTypes ≠ [] then
      elements.filter (fun e => kindStr e.core.type ∈ settings.filterTypes)
    else elements
  let filtered :=
    if searchQuery ≠ "" then kindFiltered.filter (navSearchPred searchQuery)
    else kindFiltered
  let sorted := List.insertionSort (fun a b => navComparator settings a b ≤ 0) filtered
  let inputAfter :=
    if settings.filterTypes ≠ [] ∨ searchQuery ≠ "" then elements else sorted
  let visible :=
    if settings.groupByType then
      (kindsInOrder sorted).map (fun k =>
        groupElem k (sorted.filter (fun e => e.core.type = k)))
    else sorted
  (visible, inputAfter)

/-! ### performSearch -/

/-- Interface SearchResult of the source (the source field named matches
is called matchCount here because matches is a reserved word in Lean). -/
structure SearchResult where
  element : CodeElement
  matchCount : Nat
  score : Nat
  context : String

/-- The fixed per-kind score boost table of performSearch (typeBoosts with
the or-zero fallback). -/
def typeBoost : ElemKind → Nat
  | .function => 20
  | .classK => 15
  | .variableK => 10
  | .importK => 5
  | .exportK => 5
  | _ => 0

/-- The per-element accumulation of performSearch: the score, the match
counter and the first-assigned context string, built in source order
(name, description, scope, parameters, kind boost). -/
def scoreParts (lowerQuery : String) (e : CodeElement) : Nat × Nat × String :=
  let c := e.core
  let s0 : Nat × Nat × String := (0, 0, "")
  let s1 :=
    if strIncludes (lowerStr c.name) lowerQuery then
      ((if lowerStr c.name = lowerQuery then 100 else 50), 1, c.name)
    else s0
  let s2 :=
    match c.description with
    | some d =>
      if strIncludes (lowerStr d) lowerQuery then
        (s1.1 + 25, s1.2.1 + 1, if s1.2.2 = "" then d else s1.2.2)
      else s1
    | none => s1
  let s3 :=
    if strIncludes (lowerStr c.scope) lowerQuery then
      (s2.1 + 15, s2.2.1 + 1, if s2.2.2 = "" then "In " ++ c.scope else s2.2.2)
    else s2
  let s4 :=
    match c.params with
    | some ps =>
      ps.foldl (fun acc p =>
        if strIncludes (lowerStr p) lowerQuery then
          (acc.1 + 10, acc.2.1 + 1, if acc.2.2 = "" then "Parameter: " ++ p else acc.2.2)
        else acc) s3
    | none => s3
  (s4.1 + typeBoost c.type, s4.2.1, s4.2.2)

/-- The search result built for one element when its score is positive. -/
def searchResultFor (lowerQuery : String) (e : CodeElement) : Option SearchResult :=
  let parts := scoreParts lowerQuery e
  if 0 < parts.1 then
    some { element := e, matchCount := parts.2.1, score := parts.1
           context := if parts.2.2 = "" then e.core.name else parts.2.2 }
  else none

/-- The candidate results in scan order, paired with the scan index of the
element they come from (the pairing is used only to state the stable-tie
property; dropping it recovers the source list). -/
def searchCandidatesIdx (lowerQuery : String) : Nat → List CodeElement → List (Nat × SearchResult)
  | _, [] => []
  | i, e :: es =>
    match searchResultFor lowerQuery e with
    | some r => (i, r) :: searchCandidatesIdx lowerQuery (i + 1) es
    | none => searchCandidatesIdx lowerQuery (i + 1) es

/-- The index-carrying sorted result list: the stable sort by descending
score of the candidates (the comparator reads only the score). -/
def performSearchIdx (query : String) (elements : List CodeElement) : List (Nat × SearchResult) :=
  if jsTrim query = "" then []
  else
    List.insertionSort (fun a b => b.2.score ≤ a.2.score)
      (searchCandidatesIdx (lowerStr query) 0 elements)

/-- Embedding of performSearch: empty trimmed query short-circuits to the
empty list; otherwise every element is scored in scan order, elements with
positive score become results, the results are stably sorted by
descending score and the first 20 are returned. -/
def performSearch (query : String) (elements : List CodeElement) : List SearchResult :=
  ((performSearchIdx query elements).take 20).map Prod.snd

/-! ### navigateHistory -/

/-- The action union of interface NavigationHistory. -/
inductive HistAction where
  | navigate
  | search
  | jump
deriving DecidableEq, Repr

/-- Interface NavigationHistory of the source. -/
structure NavigationHistory where
  element : CodeElement
  timestamp : Nat
  action : HistAction

/-- The direction argument of navigateHistory. -/
inductive HistDirection where
  | back
  | forward
deriving DecidableEq, Repr

/-- The component state read and written by navigateHistory. -/
structure HistState where
  navigationHistory : List NavigationHistory
  currentHistoryIndex : Int
  selectedElement : Option CodeElement

/-- JavaScript array indexing with a possibly negative index: undefined
outside the bounds. -/
def intGet? (l : List NavigationHistory) (i : Int) : Option NavigationHistory :=
  if i < 0 then none else l.get? i.toNat

/-- The clamped one-step target index of navigateHistory (the conditional
expression computing newIndex in the source). -/
def historyNewIndex (direction : HistDirection) (s : HistState) : Int :=
  match direction with
  | .back => max 0 (s.currentHistoryIndex - 1)
  | .forward => min ((s.navigationHistory.length : Int) - 1) (s.currentHistoryIndex + 1)

/-- Embedding of navigateHistory: clamp the one-step move into
[0, length-1], and commit the move only when the index changed and the
entry at the new index exists (the truthiness guard of the source). -/
def navigateHistory (direction : HistDirection) (s : HistState) : HistState :=
  let newIndex := historyNewIndex direction s
  match intGet? s.navigationHistory newIndex with
  | some entry =>
    if newIndex ≠ s.currentHistoryIndex then
      { s with currentHistoryIndex := newIndex, selectedElement := some entry.element }
    else s
  | none => s

/-! ### Audio cue mapper (audioMappings and playAudioForElement) -/

/-- The oscillator waveform union of the audio mapping table. -/
inductive Waveform where
  | sine
  | square
  | triangle
  | sawtooth
deriving DecidableEq, Repr

/-- The attack-decay-sustain-release envelope of a tone descriptor.  The
source values are JavaScript numbers; the model uses rationals (every
table value is an exact decimal). -/
structure SoundEnvelope where
  attack : ℚ
  decay : ℚ
  sustain : ℚ
  release : ℚ
deriving DecidableEq, Repr

/-- One entry of the audio mapping table: frequency (Hz), duration
(seconds), waveform and envelope. -/
structure ToneDescriptor where
  frequency : ℚ
  duration : ℚ
  waveform : Waveform
  envelope : SoundEnvelope
deriving DecidableEq, Repr

/-- The static audioMappings object literal of CodeEditor, key by key in
source order. -/
def audioMappings : List (String × ToneDescriptor) :=
  [ ("function", { frequency := 440, duration := 1/2, waveform := .sine
                   envelope := { attack := 1/10, decay := 1/5, sustain := 7/10, release := 3/10 } })
  , ("variable", { frequency := 330, duration := 3/10, waveform := .triangle
                   envelope := { attack := 1/20, decay := 1/10, sustain := 4/5, release := 1/5 } })
  , ("class", { frequency := 550, duration := 3/5, waveform := .square
                envelope := { attack := 3/20, decay := 1/4, sustain := 3/5, release := 2/5 } })
  , ("loop", { frequency := 220, duration := 2/5, waveform := .sawtooth
               envelope := { attack := 2/25, decay := 3/20, sustain := 3/4, release := 1/4 } })
  , ("conditional", { frequency := 660, duration := 7/20, waveform := .sine
                      envelope := { attack := 3/50, decay := 3/25, sustain := 41/50, release := 9/50 } })
  , ("comment", { frequency := 110, duration := 1/5, waveform := .triangle
                  envelope := { attack := 3/100, decay := 2/25, sustain := 9/10, release := 3/20 } })
  , ("string", { frequency := 880, duration := 1/4, waveform := .sine
                 envelope := { attack := 1/25, decay := 9/100, sustain := 17/20, release := 3/25 } })
  , ("number", { frequency := 440, duration := 3/20, waveform := .square
                 envelope := { attack := 1/50, decay := 1/20, sustain := 19/20, release := 2/25 } })
  , ("operator", { frequency := 1100, duration := 1/10, waveform := .triangle
                   envelope := { attack := 1/100, decay := 3/100, sustain := 49/50, release := 1/20 } })
  , ("keyword", { frequency := 770, duration := 3/10, waveform := .sawtooth
                  envelope := { attack := 7/100, decay := 13/100, sustain := 39/50, release := 11/50 } }) ]

/-- Table lookup by key (the own-property read of the object literal; the
element kinds the pipeline feeds in are never prototype property names,
so the own-property model is exact on the relevant domain). -/
def lookupAudio (k : String) : Option ToneDescriptor :=
  (audioMappings.find? (fun p => p.1 = k)).map Prod.snd

/-- The keyword fallback descriptor (audioMappings.keyword). -/
def keywordTone : ToneDescriptor :=
  { frequency := 770, duration := 3/10, waveform := .sawtooth
    envelope := { attack := 7/100, decay := 13/100, sustain := 39/50, release := 11/50 } }

/-- The descriptor resolution of playAudioForElement: the table entry for
the element type, or the keyword entry when absent (the or-fallback of the
source). -/
def cueFor (elementType : String) : ToneDescriptor :=
  (lookupAudio elementType).getD keywordTone

/-- The duration actually played by playAudioForElement: the caller
duration when present and non-zero (zero is falsy in the source or-chain),
otherwise the descriptor duration, multiplied by the playback-speed
scalar.  The shared table is a constant and is only read. -/
def playAudioDuration (elementType : String) (duration : Option ℚ) (playbackSpeed : ℚ) : ℚ :=
  let mapping := cueFor elementType
  (match duration with
   | some d => if d = 0 then mapping.duration else d
   | none => mapping.duration) * playbackSpeed

/-! ### Braille transliteration engine: static tables -/

/-- Interface BrailleCharacter of the source: glyph sequence, dot pattern,
ASCII equivalent and human description. -/
structure BrailleChar where
  unicode : String
  dots : List Nat
  ascii : String
  description : String
deriving DecidableEq, Repr

/-- The brailleMappings object literal, key by key in source order (keys
are single characters; the table maps lowercase letters, digits and
programming symbols). -/
def brailleTable : List (Char × BrailleChar) :=
  [ ('a', { unicode := "⠁", dots := [1], ascii := "a", description := "Letter A" })
  , ('b', { unicode := "⠃", dots := [1, 2], ascii := "b", description := "Letter B" })
  , ('c', { unicode := "⠉", dots := [1, 4], ascii := "c", description := "Letter C" })
  , ('d', { unicode := "⠙", dots := [1, 4, 5], ascii := "d", description := "Letter D" })
  , ('e', { unicode := "⠑", dots := [1, 5], ascii := "e", description := "Letter E" })
  , ('f', { unicode := "⠋", dots := [1, 2, 4], ascii := "f", description := "Letter F" })
  , ('g', { unicode := "⠛", dots := [1, 2, 4, 5], ascii := "g", description := "Letter G" })
  , ('h', { unicode := "⠓", dots := [1, 2, 5], ascii := "h", description := "Letter H" })
  , ('i', { unicode := "⠊", dots := [2, 4], ascii := "i", description := "Letter I" })
  , ('j', { unicode := "⠚", dots := [2, 4, 5], ascii := "j", description := "Letter J" })
  , ('k', { unicode := "⠅", dots := [1, 3], ascii := "k", description := "Letter K" })
  , ('l', { unicode := "⠇", dots := [1, 2, 3], ascii := "l", description := "Letter L" })
  , ('m', { unicode := "⠍", dots := [1, 3, 4], ascii := "m", description := "Letter M" })
  , ('n', { unicode := "⠝", dots := [1, 3, 4, 5], ascii := "n", description := "Letter N" })
  , ('o', { unicode := "⠕", dots := [1, 3, 5], ascii := "o", description := "Letter O" })
  , ('p', { unicode := "⠏", dots := [1, 2, 3, 4], ascii := "p", description := "Letter P" })
  , ('q', { unicode := "⠟", dots := [1, 2, 3, 4, 5], ascii := "q", description := "Letter Q" })
  , ('r', { unicode := "⠗", dots := [1, 2, 3, 5], ascii := "r", description := "Letter R" })
  , ('s', { unicode := "⠎", dots := [2, 3, 4], ascii := "s", description := "Letter S" })
  , ('t', { unicode := "⠞", dots := [2, 3, 4, 5], ascii := "t", description := "Letter T" })
  , ('u', { unicode := "⠥", dots := [1, 3, 6], ascii := "u", description := "Letter U" })
  , ('v', { unicode := "⠧", dots := [1, 2, 3, 6], ascii := "v", description := "Letter V" })
  , ('w', { unicode := "⠺", dots := [2, 4, 5, 6], ascii := "w", description := "Letter W" })
  , ('x', { unicode := "⠭", dots := [1, 3, 4, 6], ascii := "x", description := "Letter X" })
  , ('y', { unicode := "⠽", dots := [1, 3, 4, 5, 6], ascii := "y", description := "Letter Y" })
  , ('z', { unicode := "⠵", dots := [1, 3, 5, 6], ascii := "z", description := "Letter Z" })
  , ('1', { unicode := "⠁", dots := [1], ascii := "1", description := "Number 1" })
  , ('2', { unicode := "⠃", dots := [1, 2], ascii := "2", description := "Number 2" })
  , ('3', { unicode := "⠉", dots := [1, 4], ascii := "3", description := "Number 3" })
  , ('4', { unicode := "⠙", dots := [1, 4, 5], ascii := "4", description := "Number 4" })
  , ('5', { unicode := "⠑", dots := [1, 5], ascii := "5", description := "Number 5" })
  , ('6', { unicode := "⠋", dots := [1, 2, 4], ascii := "6", description := "Number 6" })
  , ('7', { unicode := "⠛", dots := [1, 2, 4, 5], ascii := "7", description := "Number 7" })
  , ('8', { unicode := "⠓", dots := [1, 2, 5], ascii := "8", description := "Number 8" })
  , ('9', { unicode := "⠊", dots := [2, 4], ascii := "9", description := "Number 9" })
  , ('0', { unicode := "⠚", dots := [2, 4, 5], ascii := "0", description := "Number 0" })
  , ('(', { unicode := "⠷", dots := [1, 2, 3, 5, 6], ascii := "(", description := "Left parenthesis" })
  , (')', { unicode := "⠾", dots := [2, 3, 4, 5, 6], ascii := ")", description := "Right parenthesis" })
  , ('[', { unicode := "⠨⠷", dots := [4, 6, 1, 2, 3, 5, 6], ascii := "[", description := "Left bracket" })
  , (']', { unicode := "⠨⠾", dots := [4, 6, 2, 3, 4, 5, 6], ascii := "]", description := "Right bracket" })
  , ('\x7b', { unicode := "⠸⠷", dots := [4, 5, 6, 1, 2, 3, 5, 6], ascii := "\x7b", description := "Left brace" })
  , ('\x7d', { unicode := "⠸⠾", dots := [4, 5, 6, 2, 3, 4, 5, 6], ascii := "\x7d", description := "Right brace" })
  , ('=', { unicode := "⠨⠅", dots := [4, 6, 1, 3], ascii := "=", description := "Equals sign" })
  , ('+', { unicode := "⠬", dots := [3, 4, 6], ascii := "+", description := "Plus sign" })
  , ('-', { unicode := "⠤", dots := [3, 6], ascii := "-", description := "Minus sign" })
  , ('*', { unicode := "⠔", dots := [3, 5], ascii := "*", description := "Asterisk" })
  , ('/', { unicode := "⠌", dots := [3, 4], ascii := "/", description := "Forward slash" })
  , ('\\', { unicode := "⠳", dots := [1, 2, 4, 5, 6], ascii := "\\", description := "Backslash" })
  , ('<', { unicode := "⠈⠣", dots := [4, 2, 6], ascii := "<", description := "Less than" })
  , ('>', { unicode := "⠈⠜", dots := [4, 1, 3, 5], ascii := ">", description := "Greater than" })
  , ('&', { unicode := "⠯", dots := [1, 2, 3, 4, 6], ascii := "&", description := "Ampersand" })
  , ('|', { unicode := "⠳", dots := [1, 2, 4, 5, 6], ascii := "|", description := "Vertical bar" })
  , ('^', { unicode := "⠘", dots := [4, 5], ascii := "^", description := "Caret" })
  , ('~', { unicode := "⠠⠤", dots := [6, 3, 6], ascii := "~", description := "Tilde" })
  , ('!', { unicode := "⠖", dots := [2, 3, 5], ascii := "!", description := "Exclamation mark" })
  , ('@', { unicode := "⠈⠁", dots := [4, 1], ascii := "@", description := "At symbol" })
  , ('#', { unicode := "⠼", dots := [3, 4, 5, 6], ascii := "#", description := "Hash/Number sign" })
  , ('$', { unicode := "⠫", dots := [1, 2, 4, 6], ascii := "$", description := "Dollar sign" })
  , ('%', { unicode := "⠩", dots := [1, 4, 6], ascii := "%", description := "Percent sign" })
  , ('"', { unicode := "⠦", dots := [2, 3, 6], ascii := "\"", description := "Quotation mark" })
  , ('\x27', { unicode := "⠄", dots := [3], ascii := "\x27", description := "Apostrophe" })
  , (':', { unicode := "⠒", dots := [2, 5], ascii := ":", description := "Colon" })
  , (';', { unicode := "⠆", dots := [2, 3], ascii := ";", description := "Semicolon" })
  , (',', { unicode := "⠂", dots := [2], ascii := ",", description := "Comma" })
  , ('.', { unicode := "⠲", dots := [2, 5, 6], ascii := ".", description := "Period" })
  , ('?', { unicode := "⠦", dots := [2, 3, 6], ascii := "?", description := "Question mark" })
  , (' ', { unicode := " ", dots := [], ascii := " ", description := "Space" })
  , ('\t', { unicode := "⠀⠀", dots := [], ascii := "\t", description := "Tab (2 spaces)" })
  , ('\n', { unicode := "\n", dots := [], ascii := "\n", description := "New line" }) ]

/-- Lookup in the Braille character table. -/
def brailleLookup (c : Char) : Option BrailleChar :=
  (brailleTable.find? (fun p => p.1 = c)).map Prod.snd

/-- The programmingContractions object literal of the Braille component,
entry by entry in source order.  Entries whose key contains an uppercase
letter can never fire in the source because the scanned text is lowercased
before the startsWith test while the key is not; they are kept verbatim. -/
def programmingContractions : List (String × String) :=
  [ ("function", "⠋⠝"), ("return", "⠗⠞"), ("class", "⠉⠇"), ("public", "⠏⠃")
  , ("private", "⠏⠧"), ("protected", "⠏⠞"), ("static", "⠎⠞"), ("const", "⠉⠎")
  , ("let", "⠇⠞"), ("var", "⠧⠗"), ("if", "⠊⠋"), ("else", "⠑⠇"), ("for", "⠋⠗")
  , ("while", "⠺⠓"), ("do", "⠙⠕"), ("switch", "⠎⠺"), ("case", "⠉⠁"), ("break", "⠃⠅")
  , ("continue", "⠉⠞"), ("try", "⠞⠗"), ("catch", "⠉⠓"), ("finally", "⠋⠇")
  , ("throw", "⠞⠓"), ("new", "⠝⠺"), ("delete", "⠙⠇"), ("this", "⠞⠓"), ("super", "⠎⠏")
  , ("extends", "⠑⠭"), ("implements", "⠊⠍"), ("interface", "⠊⠞"), ("enum", "⠑⠝")
  , ("import", "⠊⠍"), ("export", "⠑⠭"), ("from", "⠋⠍"), ("as", "⠁⠎"), ("default", "⠙⠋")
  , ("async", "⠁⠎"), ("await", "⠁⠺"), ("promise", "⠏⠍"), ("undefined", "⠥⠝")
  , ("null", "⠝⠇"), ("true", "⠞⠗"), ("false", "⠋⠇"), ("boolean", "⠃⠇"), ("string", "⠎⠞")
  , ("number", "⠝⠍"), ("object", "⠕⠃"), ("array", "⠁⠗"), ("length", "⠇⠛"), ("push", "⠏⠎")
  , ("pop", "⠏⠕"), ("shift", "⠎⠓"), ("unshift", "⠥⠎"), ("slice", "⠎⠇"), ("splice", "⠎⠏")
  , ("indexOf", "⠊⠙"), ("forEach", "⠋⠑"), ("map", "⠍⠁"), ("filter", "⠋⠇"), ("reduce", "⠗⠙")
  , ("find", "⠋⠙"), ("console", "⠉⠕"), ("log", "⠇⠛"), ("error", "⠑⠗"), ("warn", "⠺⠗")
  , ("debug", "⠙⠃"), ("document", "⠙⠉"), ("window", "⠺⠙"), ("element", "⠑⠇")
  , ("addEventListener", "⠁⠇"), ("removeEventListener", "⠗⠇"), ("getElementById", "⠛⠊")
  , ("querySelector", "⠟⠎"), ("createElement", "⠉⠑"), ("appendChild", "⠁⠉")
  , ("removeChild", "⠗⠉"), ("innerHTML", "⠊⠓"), ("textContent", "⠞⠉")
  , ("setAttribute", "⠎⠁"), ("getAttribute", "⠛⠁"), ("classList", "⠉⠇"), ("style", "⠎⠞")
  , ("setTimeout", "⠎⠞"), ("setInterval", "⠎⠊"), ("clearTimeout", "⠉⠞")
  , ("clearInterval", "⠉⠊") ]

/-! ### Braille transliteration engine: conversion -/

/-- The grade union of interface BrailleSettings. -/
inductive BrailleGrade where
  | grade1
  | grade2
deriving DecidableEq, Repr

/-- Interface BrailleSettings of the source (lineSpacing holds a
fractional value and is modelled as a rational; only grade,
contractionsEnabled, computerBraille, preserveFormatting, showLineNumbers
and compactMode are read by the conversion). -/
structure BrailleSettings where
  grade : BrailleGrade
  cellsPerLine : Nat
  lineSpacing : ℚ
  fontSize : Nat
  showDotNumbers : Bool
  showAsciiEquivalent : Bool
  contractionsEnabled : Bool
  mathNotation : Bool
  computerBraille : Bool
  unicode8Dot : Bool
  tactileFeedback : Bool
  audioFeedback : Bool
  autoRefresh : Bool
  preserveFormatting : Bool
  showLineNumbers : Bool
  compactMode : Bool
deriving Repr

/-- The initial settings value of the Braille component state. -/
def defaultBrailleSettings : BrailleSettings :=
  { grade := .grade2, cellsPerLine := 40, lineSpacing := 3/2, fontSize := 24
    showDotNumbers := false, showAsciiEquivalent := false, contractionsEnabled := true
    mathNotation := true, computerBraille := true, unicode8Dot := false
    tactileFeedback := false, audioFeedback := true, autoRefresh := true
    preserveFormatting := true, showLineNumbers := true, compactMode := false }

/-- One pass of findLongestContraction over a table: keep the last entry
that is a prefix of the lowercased text, is strictly longer than the best
match so far, and is followed by end of text or a non-word character in
the original text (the complete-word check of the source). -/
def contractionScan (text : List Char) : List (String × String) →
    Option (String × Nat) → Option (String × Nat)
  | [], acc => acc
  | (word, braille) :: rest, acc =>
    let maxLength := match acc with
      | some (_, n) => n
      | none => 0
    let ok : Bool := word.data.isPrefixOf (text.map Char.toLower) &&
      decide (word.length > maxLength) &&
      (match text.get? word.length with
       | some c => ! isWordChar c
       | none => true)
    contractionScan text rest (if ok then some (braille, word.length) else acc)

/-- Embedding of findLongestContraction: scan the programming table first
and then the user table, threading the running longest match.  Returns
the glyph sequence and the consumed length. -/
def findLongestContraction (custom : List (String × String)) (text : List Char) :
    Option (String × Nat) :=
  contractionScan text custom (contractionScan text programmingContractions none)

/-- A contraction match always consumes at least one character (every
table word beating the initial zero maximum is non-empty). -/
theorem contractionScan_pos (text : List Char) (table : List (String × String))
    (acc : Option (String × Nat))
    (hacc : ∀ b n, acc = some (b, n) → 0 < n) :
    ∀ b n, contractionScan text table acc = some (b, n) → 0 < n := by
  induction table generalizing acc with
  | nil => simpa [contractionScan] using hacc
  | cons p rest ih =>
    obtain ⟨word, braille⟩ := p
    intro b n h
    simp only [contractionScan] at h
    refine ih _ ?_ b n h
    intro b' n' h'
    split at h'
    · next hok =>
      injection h' with h''
      injection h'' with h1 h2
      subst h2
      simp only [Bool.and_eq_true, decide_eq_true_eq] at hok
      omega
    · exact hacc b' n' h'

/-- Positivity of the consumed length of findLongestContraction. -/
theorem findLongestContraction_pos (custom : List (String × String)) (text : List Char)
    (b : String) (n : Nat) (h : findLongestContraction custom text = some (b, n)) : 0 < n := by
  refine contractionScan_pos text custom _ ?_ b n h
  intro b' n' h'
  exact contractionScan_pos text programmingContractions none (by intro _ _ hc; cases hc) b' n' h'

/-- Embedding of handleProgrammingSymbol: the fourteen two-character
operator prefixes tried in source order (the context argument of the
source is ignored by the body and omitted here). -/
def handleProgrammingSymbol (text : List Char) : Option (String × Nat) :=
  if "==".data.isPrefixOf text then some ("⠨⠅⠨⠅", 2)
  else if "!=".data.isPrefixOf text then some ("⠌⠨⠅", 2)
  else if "<=".data.isPrefixOf text then some ("⠈⠣⠨⠅", 2)
  else if ">=".data.isPrefixOf text then some ("⠈⠜⠨⠅", 2)
  else if "++".data.isPrefixOf text then some ("⠬⠬", 2)
  else if "--".data.isPrefixOf text then some ("⠤⠤", 2)
  else if "&&".data.isPrefixOf text then some ("⠯⠯", 2)
  else if "||".data.isPrefixOf text then some ("⠳⠳", 2)
  else if "::".data.isPrefixOf text then some ("⠒⠒", 2)
  else if "->".data.isPrefixOf text then some ("⠤⠈⠜", 2)
  else if "=>".data.isPrefixOf text then some ("⠨⠅⠈⠜", 2)
  else if "//".data.isPrefixOf text then some ("⠌⠌", 2)
  else if "/*".data.isPrefixOf text then some ("⠌⠔", 2)
  else if "*/".data.isPrefixOf text then some ("⠔⠌", 2)
  else none

/-- A symbol match always consumes exactly two characters. -/
theorem handleProgrammingSymbol_len (text : List Char) (b : String) (n : Nat)
    (h : handleProgrammingSymbol text = some (b, n)) : n = 2 := by
  unfold handleProgrammingSymbol at h
  by_cases c01 : "==".data.isPrefixOf text = true
  case pos => rw [if_pos c01] at h; injection h with h1; injection h1 with h2 h3; omega
  rw [if_neg c01] at h
  by_cases c02 : "!=".data.isPrefixOf text = true
  case pos => rw [if_pos c02] at h; injection h with h1; injection h1 with h2 h3; omega
  rw [if_neg c02] at h
  by_cases c03 : "<=".data.isPrefixOf text = true
  case pos => rw [if_pos c03] at h; injection h with h1; injection h1 with h2 h3; omega
  rw [if_neg c03] at h
  by_cases c04 : ">=".data.isPrefixOf text = true
  case pos => rw [if_pos c04] at h; injection h with h1; injection h1 with h2 h3; omega
  rw [if_neg c04] at h
  by_cases c05 : "++".data.isPrefixOf text = true
  case pos => rw [if_pos c05] at h; injection h with h1; injection h1 with h2 h3; omega
  rw [if_neg c05] at h
  by_cases c06 : "--".data.isPrefixOf text = true
  case pos => rw [if_pos c06] at h; injection h with h1; injection h1 with h2 h3; omega
  rw [if_neg c06] at h
  by_cases c07 : "&&".data.isPrefixOf text = true
  case pos => rw [if_pos c07] at h; injection h with h1; injection h1 with h2 h3; omega
  rw [if_neg c07] at h
  by_cases c08 : "||".data.isPrefixOf text = true
  case pos => rw [if_pos c08] at h; injection h with h1; injection h1 with h2 h3; omega
  rw [if_neg c08] at h
  by_cases c09 : "::".data.isPrefixOf text = true
  case pos => rw [if_pos c09] at h; injection h with h1; injection h1 with h2 h3; omega
  rw [if_neg c09] at h
  by_cases c10 : "->".data.isPrefixOf text = true
  case pos => rw [if_pos c10] at h; injection h with h1; injection h1 with h2 h3; omega
  rw [if_neg c10] at h
  by_cases c11 : "=>".data.isPrefixOf text = true
  case pos => rw [if_pos c11] at h; injection h with h1; injection h1 with h2 h3; omega
  rw [if_neg c11] at h
  by_cases c12 : "//".data.isPrefixOf text = true
  case pos => rw [if_pos c12] at h; injection h with h1; injection h1 with h2 h3; omega
  rw [if_neg c12] at h
  by_cases c13 : "/*".data.isPrefixOf text = true
  case pos => rw [if_pos c13] at h; injection h with h1; injection h1 with h2 h3; omega
  rw [if_neg c13] at h
  by_cases c14 : "*/".data.isPrefixOf text = true
  case pos => rw [if_pos c14] at h; injection h with h1; injection h1 with h2 h3; omega
  rw [if_neg c14] at h
  exact Option.noConfusion h

/-- Embedding of extractNumberSequence: the maximal run of digits and
periods at the start of the text, or none when the run is empty. -/
def extractNumberSequence (text : List Char) : Option (List Char) :=
  let run := text.takeWhile (fun c => ('0' ≤ c ∧ c ≤ '9') ∨ c = '.')
  if run.isEmpty then none else some run

/-- Embedding of convertNumbersToBraille: per character, the decimal-point
glyph for a period, the table glyph, or the replacement glyph. -/
def convertNumbersToBraille (numbers : List Char) : String :=
  String.join (numbers.map (fun c =>
    if c = '.' then "⠨"
    else match brailleLookup c with
      | some bc => bc.unicode
      | none => "⠿"))

/-- One step of the character loop of convertToBraille: the output text
and the number of consumed source characters, with the source priority
order (grade-2 contraction, computer-Braille operator, digit run, single
character with capital indicator, replacement glyph).  The BrailleContext
record the source threads along is mutated but never read by any branch
that produces output (handleProgrammingSymbol ignores its context
argument), so the model omits it. -/
def brailleStep (settings : BrailleSettings) (custom : List (String × String))
    (c : Char) (rest : List Char) : String × Nat :=
  let text := c :: rest
  match (if settings.contractionsEnabled ∧ settings.grade = .grade2 then
          findLongestContraction custom text else none) with
  | some (braille, len) => (braille, len)
  | none =>
    match (if settings.computerBraille then handleProgrammingSymbol text else none) with
    | some (braille, len) => (braille, len)
    | none =>
      match (if '0' ≤ c ∧ c ≤ '9' then extractNumberSequence text else none) with
      | some run => ("⠼" ++ convertNumbersToBraille run, run.length)
      | none =>
        match brailleLookup c.toLower with
        | some bc =>
          ((if c ≠ c.toLower ∧ 'A' ≤ c ∧ c ≤ 'Z' then "⠠" else "") ++ bc.unicode, 1)
        | none => ("⠿", 1)

/-- A matched digit run is non-empty. -/
theorem extractNumberSequence_pos (text : List Char) (run : List Char)
    (h : extractNumberSequence text = some run) : 0 < run.length := by
  simp only [extractNumberSequence] at h
  split at h
  · exact Option.noConfusion h
  · next hrun =>
    injection h with h1
    subst h1
    simpa [List.isEmpty_iff, List.length_pos] using hrun

/-- Every step consumes at least one character. -/
theorem brailleStep_pos (settings : BrailleSettings) (custom : List (String × String))
    (c : Char) (rest : List Char) : 0 < (brailleStep settings custom c rest).2 := by
  simp only [brailleStep]
  cases h1 : (if settings.contractionsEnabled ∧ settings.grade = BrailleGrade.grade2 then
      findLongestContraction custom (c :: rest) else none) with
  | some p =>
    obtain ⟨b1, n1⟩ := p
    split at h1
    · simpa using findLongestContraction_pos custom (c :: rest) b1 n1 h1
    · exact Option.noConfusion h1
  | none =>
    cases h2 : (if settings.computerBraille then handleProgrammingSymbol (c :: rest) else none) with
    | some p =>
      obtain ⟨b2, n2⟩ := p
      split at h2
      · have := handleProgrammingSymbol_len (c :: rest) b2 n2 h2
        simp [this]
      · exact Option.noConfusion h2
    | none =>
      cases h3 : (if '0' ≤ c ∧ c ≤ '9' then extractNumberSequence (c :: rest) else none) with
      | some run =>
        split at h3
        · simpa using extractNumberSequence_pos (c :: rest) run h3
        · exact Option.noConfusion h3
      | none =>
        cases brailleLookup c.toLower <;> simp

/-- The character loop of convertToBraille over one line, written with a
skip counter so that the recursion is structural in the character list
(the source advances a cursor by the consumed length; a positive skip
counter stands for the remaining characters of the current token). -/
def convertCharsGo (settings : BrailleSettings) (custom : List (String × String)) :
    Nat → List Char → String
  | _, [] => ""
  | 0, c :: rest =>
    let step := brailleStep settings custom c rest
    step.1 ++ convertCharsGo settings custom (step.2 - 1) rest
  | k + 1, _ :: rest => convertCharsGo settings custom k rest

/-- The character loop of convertToBraille over one line. -/
def convertChars (settings : BrailleSettings) (custom : List (String × String))
    (cs : List Char) : String :=
  convertCharsGo settings custom 0 cs

/-- Skipping k characters through the counter is dropping them. -/
theorem convertCharsGo_skip (settings : BrailleSettings) (custom : List (String × String)) :
    ∀ (cs : List Char) (k : Nat),
      convertCharsGo settings custom k cs = convertCharsGo settings custom 0 (cs.drop k) := by
  intro cs
  induction cs with
  | nil => intro k; cases k <;> rfl
  | cons c rest ih =>
    intro k
    cases k with
    | zero => rfl
    | succ k => simpa [convertCharsGo] using ih k

/-- The recursion equation of the source loop: one step emits its output
and the loop continues after the consumed characters. -/
theorem convertChars_cons (settings : BrailleSettings) (custom : List (String × String))
    (c : Char) (rest : List Char) :
    convertChars settings custom (c :: rest) =
      (brailleStep settings custom c rest).1 ++
        convertChars settings custom ((c :: rest).drop (brailleStep settings custom c rest).2) := by
  have hpos := brailleStep_pos settings custom c rest
  simp only [convertChars, convertCharsGo, convertCharsGo_skip settings custom rest]
  congr 1
  cases hstep : (brailleStep settings custom c rest).2 with
  | zero => omega
  | succ k => simp [List.drop_succ_cons]

/-- One line of convertToBraille: the optional glyph-encoded line number
(three digits, zero-padded, followed by the colon glyph and a space), the
optional indentation markers (one blank braille cell per two leading
whitespace characters), and the converted characters. -/
def convertLine (settings : BrailleSettings) (custom : List (String × String))
    (lineIndex : Nat) (line : String) : String :=
  let indentLevel := (line.data.takeWhile jsIsSpace).length / 2
  let lineNum :=
    if settings.showLineNumbers ∧ ¬ settings.compactMode then
      convertNumbersToBraille (List.leftpad 3 '0' (toString (lineIndex + 1)).data) ++ "⠒ "
    else ""
  let indent :=
    if indentLevel > 0 ∧ settings.preserveFormatting then
      String.mk (List.replicate indentLevel '⠀')
    else ""
  lineNum ++ indent ++ convertChars settings custom line.data

/-- The indexed traversal of the split lines of convertToBraille. -/
def convertLinesFrom (settings : BrailleSettings) (custom : List (String × String)) :
    Nat → List String → List String
  | _, [] => []
  | idx, l :: ls => convertLine settings custom idx l :: convertLinesFrom settings custom (idx + 1) ls

/-- Embedding of convertToBraille: the empty (falsy) text gives the empty
string; otherwise the text is split on newlines, each line is converted
independently, and the converted lines are joined with newlines.  The
custom argument is the customContractions component state the source
closure reads (the initial state is the empty table). -/
def convertToBraille (settings : BrailleSettings) (custom : List (String × String))
    (text : String) : String :=
  if text = "" then ""
  else String.intercalate "\n" (convertLinesFrom settings custom 0 (jsSplit '\n' text))

/-! ### Conversion statistics (calculateStats) -/

/-- The statistics record set by calculateStats.  The accuracy and
compression-ratio fields hold fractional values and are modelled as
rationals; the claimed properties (the clamping bound and the
percent-quotient identity) are exact in both the rational model and the
double-precision source because every intermediate step is either exact or
a monotone clamp and rounding. -/
structure ConversionStats where
  totalCharacters : Nat
  brailleCells : Nat
  contractions : Nat
  accuracy : ℚ
  compressionRatio : ℚ
deriving DecidableEq, Repr

/-- Math.round: the nearest integer, ties toward positive infinity. -/
def jsRound (x : ℚ) : ℤ :=
  ⌊x + 1/2⌋

/-- The keyword-count statistic regex: the global match count of the
boundary-delimited alternation of the six declarator keywords, without the
case-insensitive flag.  No keyword of the set is a prefix of another, so
the alternation count is the sum of the per-keyword counts. -/
def countContractionKeywords (l : List Char) : Nat :=
  countWordTokenCS "function" l + countWordTokenCS "return" l + countWordTokenCS "class" l +
  countWordTokenCS "const" l + countWordTokenCS "let" l + countWordTokenCS "var" l

/-- Embedding of calculateStats.  brailleCells counts the non-whitespace
characters of the Braille text (the whitespace-class global replace).  The
accuracy heuristic divides by the character count, so on the empty input
the source produces the not-a-number value; the model is stated for the
rational convention zero-divided and the claims only evaluate it on
non-empty input. -/
def calculateStats (originalText brailleText : String) : ConversionStats :=
  let totalChars := originalText.length
  let brailleCells := (brailleText.data.filter (fun c => ! jsIsSpace c)).length
  let contractions := countContractionKeywords originalText.data
  let accuracy : ℚ :=
    min 100 (max 0 (100 - (|(totalChars : ℚ) - (brailleCells : ℚ)| / (totalChars : ℚ)) * 100))
  let compressionRatio : ℚ :=
    if totalChars > 0 then ((brailleCells : ℚ) / (totalChars : ℚ)) * 100 else 0
  { totalCharacters := totalChars
    brailleCells := brailleCells
    contractions := contractions
    accuracy := (jsRound (accuracy * 10) : ℚ) / 10
    compressionRatio := (jsRound (compressionRatio * 100) : ℚ) / 100 }

/-- The conversion pipeline of the Braille component effect: convert the
text and compute the statistics of the pair (code, converted). -/
def transliterate (settings : BrailleSettings) (custom : List (String × String))
    (text : String) : String × ConversionStats :=
  let converted := convertToBraille settings custom text
  (converted, calculateStats text converted)

/-! ### Claim theorems -/

/-- C1: on the single line "function add(a, b) \x7b" the function regex
fires as the claim expects (name add, raw parameter text "a, b", split
into the parameters a and b) — but the scanner emits no element at all:
building the element literal calls calculateComplexity, whose keyword
loop constructs the question-mark pattern, a quantifier directly on a
word-boundary assertion, which is a SyntaxError thrown by new RegExp,
and the exception propagates out of parseCode.  The claimed single
element with complexity 1 is never produced.  This theorem evaluates the
scanner at the failing input, witnessing the code bug. -/
theorem c1_scan_function_add_eval :
    matchFunction (jsTrim "function add(a, b) \x7b").data =
      some { name := "add", isAsync := false, paramsRaw := "a, b" } ∧
    splitParams "a, b" = ["a", "b"] ∧
    calculateComplexity "function add(a, b) \x7b" = Except.error regexSyntaxErrorMsg ∧
    parseCode "function add(a, b) \x7b" = Except.error regexSyntaxErrorMsg := by
  exact ⟨by decide, by decide, rfl, rfl⟩

/-- C3: with grade-2 Braille and contractions enabled (the default
settings and the empty user table), the word "form" is rendered character
by character because the next character after the "for" prefix is the word
character m, while "for " (trailing space) takes the "for" contraction
glyph; the leading glyphs are the line-number prefix of the default
settings. -/
theorem c3_longest_match_boundary :
    convertToBraille defaultBrailleSettings [] "form" = "⠚⠚⠁⠒ ⠋⠕⠗⠍" ∧
    convertToBraille defaultBrailleSettings [] "for " = "⠚⠚⠁⠒ ⠋⠗ " ∧
    findLongestContraction [] "form".data = none ∧
    findLongestContraction [] "for ".data = some ("⠋⠗", 3) := by
  decide

/-- C8: the audio cue lookup is a pure table lookup with the keyword entry
as default: a kind with an explicit entry resolves to that entry and a
kind without one resolves to the keyword descriptor; triggering scales the
chosen duration (the caller duration when non-zero, else the descriptor
duration) by the playback-speed scalar, and the shared table, being a
constant that is only read, is never mutated. -/
theorem c8_cue_lookup_contract :
    (∀ (k : ElemKind) (t : ToneDescriptor),
      lookupAudio (kindStr k) = some t → cueFor (kindStr k) = t) ∧
    (∀ k : ElemKind, lookupAudio (kindStr k) = none → cueFor (kindStr k) = keywordTone) ∧
    (∀ (ty : String) (speed : ℚ),
      playAudioDuration ty none speed = (cueFor ty).duration * speed) ∧
    (∀ (ty : String) (d speed : ℚ), d ≠ 0 →
      playAudioDuration ty (some d) speed = d * speed) := by
  refine ⟨?_, ?_, ?_, ?_⟩
  · intro k t h
    simp [cueFor, h]
  · intro k h
    simp [cueFor, h]
  · intro ty speed
    rfl
  · intro ty d speed hd
    simp [playAudioDuration, hd]

/-- Witness for C8: the import kind has no explicit entry and falls back
to the keyword descriptor; the function kind resolves to its own entry;
a caller duration of 2 at speed 3 plays for 6. -/
theorem c8_cue_lookup_contract_witness :
    cueFor (kindStr .importK) = keywordTone ∧
    cueFor (kindStr .function) =
      { frequency := 440, duration := 1/2, waveform := .sine
        envelope := { attack := 1/10, decay := 1/5, sustain := 7/10, release := 3/10 } } ∧
    playAudioDuration "function" (some 2) 3 = 2 * 3 := by
  refine ⟨?_, ?_, ?_⟩
  · exact c8_cue_lookup_contract.2.1 .importK (by rfl)
  · exact c8_cue_lookup_contract.1 .function _ (by rfl)
  · exact c8_cue_lookup_contract.2.2.2 "function" 2 3 (by norm_num)

/-- C6: navigateHistory never changes the history sequence, moves the
cursor by at most one step and keeps it inside [0, length-1] whenever it
starts there, and the move at either boundary — back at cursor 0, and
forward at cursor length-1 — is a complete no-op (cursor, history and
selected element unchanged) — for every state and direction, without any
exceptional case. -/
theorem c6_navigate_history_contract :
    ∀ (s : HistState) (direction : HistDirection),
      (navigateHistory direction s).navigationHistory = s.navigationHistory ∧
      (0 ≤ s.currentHistoryIndex →
        s.currentHistoryIndex < (s.navigationHistory.length : Int) →
        0 ≤ (navigateHistory direction s).currentHistoryIndex ∧
        (navigateHistory direction s).currentHistoryIndex < (s.navigationHistory.length : Int) ∧
        ((navigateHistory direction s).currentHistoryIndex - s.currentHistoryIndex).natAbs ≤ 1) ∧
      ((direction = .back ∧ s.currentHistoryIndex = 0) ∨
       (direction = .forward ∧
         s.currentHistoryIndex = (s.navigationHistory.length : Int) - 1) →
        navigateHistory direction s = s) := by
  intro s direction
  have hrange : 0 ≤ s.currentHistoryIndex →
      s.currentHistoryIndex < (s.navigationHistory.length : Int) →
      0 ≤ historyNewIndex direction s ∧
      historyNewIndex direction s < (s.navigationHistory.length : Int) ∧
      (historyNewIndex direction s - s.currentHistoryIndex).natAbs ≤ 1 := by
    intro h0 hlen
    cases direction <;> simp only [historyNewIndex] <;> omega
  refine ⟨?_, ?_, ?_⟩
  · simp only [navigateHistory]
    cases hget : intGet? s.navigationHistory (historyNewIndex direction s) with
    | none => rfl
    | some entry =>
      dsimp only
      by_cases hne : historyNewIndex direction s ≠ s.currentHistoryIndex
      · rw [if_pos hne]
      · rw [if_neg hne]
  · intro h0 hlen
    simp only [navigateHistory]
    cases hget : intGet? s.navigationHistory (historyNewIndex direction s) with
    | none =>
      dsimp only
      exact ⟨h0, hlen, by omega⟩
    | some entry =>
      dsimp only
      by_cases hne : historyNewIndex direction s ≠ s.currentHistoryIndex
      · rw [if_pos hne]
        exact hrange h0 hlen
      · rw [if_neg hne]
        exact ⟨h0, hlen, by omega⟩
  · intro hbd
    have hidx : historyNewIndex direction s = s.currentHistoryIndex := by
      rcases hbd with ⟨hd, h0⟩ | ⟨hd, h0⟩ <;> subst hd <;>
        simp only [historyNewIndex] <;> omega
    simp only [navigateHistory, hidx]
    cases hget : intGet? s.navigationHistory s.currentHistoryIndex with
    | none => rfl
    | some entry => simp

/-- A concrete element used by the history witness state. -/
def demoHistElem : CodeElement :=
  .mk { id := "function-0", type := .function, name := "go", line := 1, column := 1
        endLine := 1, endColumn := 8, scope := "global", params := some []
        returnType := none, visibility := none, isStatic := none, isAsync := some false
        description := some "Function with 0 parameters", complexity := some 1 } none

/-- A concrete one-entry history state with the cursor at 0. -/
def demoHistState : HistState :=
  { navigationHistory := [{ element := demoHistElem, timestamp := 0, action := .navigate }]
    currentHistoryIndex := 0
    selectedElement := some demoHistElem }

/-- Witness for C6: on a one-entry history with the cursor at 0 (which is
both the lower boundary and, the length being 1, the upper one), the back
move and the forward move keep the history and are complete no-ops. -/
theorem c6_navigate_history_contract_witness :
    (navigateHistory .back demoHistState).navigationHistory =
      demoHistState.navigationHistory ∧
    navigateHistory .back demoHistState = demoHistState ∧
    navigateHistory .forward demoHistState = demoHistState := by
  refine ⟨(c6_navigate_history_contract demoHistState .back).1,
         (c6_navigate_history_contract demoHistState .back).2.2 (Or.inl ⟨rfl, rfl⟩),
         (c6_navigate_history_contract demoHistState .forward).2.2 (Or.inr ⟨rfl, ?_⟩)⟩
  decide

/-- Matching a two-character operator needs at least two characters, so a
single-character text never matches. -/
theorem handleProgrammingSymbol_singleton (c : Char) :
    handleProgrammingSymbol [c] = none := by
  simp [handleProgrammingSymbol, List.isPrefixOf]

/-- C5: the transliteration is a total function of its input (it is a
plain Lean definition, and the falsy empty input returns the empty
string), and a character with no glyph mapping that no contraction,
operator or digit rule consumes contributes the replacement glyph
rather than failing: on a one-character line the loop emits exactly the
replacement glyph. -/
theorem c5_transliterate_total_fallback :
    (∀ (settings : BrailleSettings) (custom : List (String × String)),
      convertToBraille settings custom "" = "") ∧
    (∀ (settings : BrailleSettings) (custom : List (String × String)) (c : Char),
      brailleLookup c.toLower = none →
      findLongestContraction custom [c] = none →
      ¬ ('0' ≤ c ∧ c ≤ '9') →
      convertChars settings custom [c] = "⠿") := by
  constructor
  · intro settings custom
    rfl
  · intro settings custom c hlook hcontr hdigit
    have hstep : brailleStep settings custom c [] = ("⠿", 1) := by
      simp only [brailleStep]
      rw [show (if settings.contractionsEnabled ∧ settings.grade = BrailleGrade.grade2 then
            findLongestContraction custom [c] else none) = none by
          split <;> simp [hcontr]]
      rw [show (if settings.computerBraille then handleProgrammingSymbol [c] else none) = none by
          split <;> simp [handleProgrammingSymbol_singleton]]
      rw [if_neg hdigit]
      rw [hlook]
    rw [convertChars_cons, hstep]
    rfl

/-- Witness for C5: the euro sign has no glyph mapping and no rule
consumes it, and its one-character line converts to exactly the
replacement glyph. -/
theorem c5_transliterate_total_fallback_witness :
    convertToBraille defaultBrailleSettings [] "" = "" ∧
    convertChars defaultBrailleSettings [] ['€'] = "⠿" := by
  refine ⟨c5_transliterate_total_fallback.1 defaultBrailleSettings [], ?_⟩
  exact c5_transliterate_total_fallback.2 defaultBrailleSettings [] '€'
    (by rfl) (by rfl) (by decide)

/-- Rounding to one decimal place keeps a value of [0, 100] inside
[0, 100]. -/
theorem jsRound_div10_bounds (x : ℚ) (h0 : 0 ≤ x) (h100 : x ≤ 100) :
    0 ≤ (jsRound (x * 10) : ℚ) / 10 ∧ (jsRound (x * 10) : ℚ) / 10 ≤ 100 := by
  have hl : 0 ≤ jsRound (x * 10) := by
    rw [jsRound]
    exact Int.le_floor.mpr (by push_cast; linarith)
  have hu : jsRound (x * 10) ≤ 1000 := by
    rw [jsRound]
    have hlt : ⌊x * 10 + 1/2⌋ < (1001 : ℤ) := Int.floor_lt.mpr (by push_cast; linarith)
    omega
  constructor
  · exact div_nonneg (by exact_mod_cast hl) (by norm_num)
  · rw [div_le_iff₀ (by norm_num : (0:ℚ) < 10)]
    calc (jsRound (x * 10) : ℚ) ≤ 1000 := by exact_mod_cast hu
    _ = 100 * 10 := by norm_num

/-- C9 counterexample: for the input "ab" the stored compression ratio is
300 (the percentage form of the quotient, rounded to two decimals), while
the plain quotient of the non-whitespace glyph count (6) by the character
count (2) is 3 — so the ratio does not equal the quotient as the claim
states it. -/
theorem c9_ratio_counterexample :
    (transliterate defaultBrailleSettings [] "ab").2.compressionRatio ≠
      ((transliterate defaultBrailleSettings [] "ab").2.brailleCells : ℚ) /
        ((transliterate defaultBrailleSettings [] "ab").2.totalCharacters : ℚ) := by
  have hconv : convertToBraille defaultBrailleSettings [] "ab" = "⠚⠚⠁⠒ ⠁⠃" := by decide
  have hstats : (transliterate defaultBrailleSettings [] "ab").2 =
      calculateStats "ab" "⠚⠚⠁⠒ ⠁⠃" := by
    rw [show (transliterate defaultBrailleSettings [] "ab").2 =
      calculateStats "ab" (convertToBraille defaultBrailleSettings [] "ab") from rfl, hconv]
  rw [hstats]
  have hcells : (("⠚⠚⠁⠒ ⠁⠃" : String).data.filter (fun c => ! jsIsSpace c)).length = 6 := by
    decide
  have hchars : ("ab" : String).length = 2 := by decide
  simp only [calculateStats, hcells, hchars]
  norm_num [jsRound]

/-- C9 amended: for every non-empty input, the stored compression ratio
equals 100 times the quotient of the non-whitespace glyph count by the
character count (a percentage), rounded to two decimal places, and the
accuracy heuristic is clamped into [0, 100]. -/
theorem c9_stats_percent_amended :
    ∀ (settings : BrailleSettings) (custom : List (String × String)) (text : String),
      text ≠ "" →
      (transliterate settings custom text).2.compressionRatio =
        (jsRound ((((transliterate settings custom text).2.brailleCells : ℚ) /
            ((transliterate settings custom text).2.totalCharacters : ℚ)) * 100 * 100) : ℚ) / 100 ∧
      0 ≤ (transliterate settings custom text).2.accuracy ∧
      (transliterate settings custom text).2.accuracy ≤ 100 := by
  intro settings custom text htext
  have hlen : 0 < text.length := by
    cases text with
    | mk data =>
      cases data with
      | nil => exact absurd rfl htext
      | cons c t => simp [String.length]
  refine ⟨?_, ?_⟩
  · simp only [transliterate, calculateStats]
    rw [if_pos hlen]
  · simp only [transliterate, calculateStats]
    refine jsRound_div10_bounds _ ?_ ?_
    · exact le_min (by norm_num) (le_max_left 0 _)
    · exact min_le_left 100 _

/-- Witness for C9 amended, at the concrete input "ab". -/
theorem c9_stats_percent_amended_witness :
    (transliterate defaultBrailleSettings [] "ab").2.compressionRatio =
      (jsRound ((((transliterate defaultBrailleSettings [] "ab").2.brailleCells : ℚ) /
          ((transliterate defaultBrailleSettings [] "ab").2.totalCharacters : ℚ)) * 100 * 100) : ℚ) / 100 ∧
    0 ≤ (transliterate defaultBrailleSettings [] "ab").2.accuracy ∧
    (transliterate defaultBrailleSettings [] "ab").2.accuracy ≤ 100 :=
  c9_stats_percent_amended defaultBrailleSettings [] "ab" (by decide)

/-- A concrete element on line 2 (scanned first in the counterexample). -/
def elemLine2 : CodeElement :=
  .mk { id := "variable-0", type := .variableK, name := "b", line := 2, column := 7
        endLine := 2, endColumn := 11, scope := "global", params := none
        returnType := none, visibility := none, isStatic := none, isAsync := none
        description := some "const variable", complexity := some 1 } none

/-- A concrete element on line 1 (scanned second in the counterexample). -/
def elemLine1 : CodeElement :=
  .mk { id := "variable-1", type := .variableK, name := "a", line := 1, column := 7
        endLine := 1, endColumn := 11, scope := "global", params := none
        returnType := none, visibility := none, isStatic := none, isAsync := none
        description := some "const variable", complexity := some 1 } none

/-- C4 counterexample: with the default settings (no kind filter) and the
empty query, the filter steps alias the caller's array, and the in-place
sort reorders it — after the call the input sequence [line-2, line-1] has
become [line-1, line-2], so the claim that the input is never mutated
fails. -/
theorem c4_mutation_counterexample :
    (filterAndSortElements defaultNavigationSettings "" [elemLine2, elemLine1]).2 ≠
      [elemLine2, elemLine1] := by
  intro h
  have h2 : ([elemLine1, elemLine2] : List CodeElement) = [elemLine2, elemLine1] := by
    calc ([elemLine1, elemLine2] : List CodeElement)
        = (filterAndSortElements defaultNavigationSettings "" [elemLine2, elemLine1]).2 := by rfl
      _ = [elemLine2, elemLine1] := h
  have h3 := congrArg (fun l => l.map (fun e => e.core.name)) h2
  simp only [List.map] at h3
  exact absurd h3 (by decide)

/-- C4 amended: the navigation index leaves its input untouched whenever a
kind filter or a search query is active (the filter allocates a fresh
array); when both are inactive, the sort runs in place on the caller's
array, so the input keeps its elements as a multiset (a permutation) but
not necessarily their order. -/
theorem c4_mutation_amended :
    ∀ (settings : NavigationSettings) (searchQuery : String) (elements : List CodeElement),
      (settings.filterTypes ≠ [] ∨ searchQuery ≠ "" →
        (filterAndSortElements settings searchQuery elements).2 = elements) ∧
      ((filterAndSortElements settings searchQuery elements).2).Perm elements := by
  intro settings searchQuery elements
  constructor
  · intro hactive
    simp only [filterAndSortElements]
    rw [if_pos hactive]
  · simp only [filterAndSortElements]
    by_cases hactive : settings.filterTypes ≠ [] ∨ searchQuery ≠ ""
    · rw [if_pos hactive]
    · rw [if_neg hactive]
      push_neg at hactive
      obtain ⟨hft, hq⟩ := hactive
      rw [if_neg (by simpa using hq), if_neg (by simpa using hft)]
      exact List.perm_insertionSort _ elements

/-- Witness for C4 amended: with an active kind filter the input comes
back unchanged, and the permutation fact holds at the same input. -/
theorem c4_mutation_amended_witness :
    (filterAndSortElements
      { defaultNavigationSettings with filterTypes := ["variable"] } "" [elemLine2]).2 =
      [elemLine2] ∧
    ((filterAndSortElements
      { defaultNavigationSettings with filterTypes := ["variable"] } "" [elemLine2]).2).Perm
      [elemLine2] :=
  ⟨(c4_mutation_amended _ "" [elemLine2]).1 (Or.inl (by decide)),
   (c4_mutation_amended _ "" [elemLine2]).2⟩

/-- The additive scoring formula as the specification states it, written
as one sum (name exact or substring, description substring, scope
substring, 10 per matching parameter, per-kind boost); compared below with
the imperative accumulation of performSearch. -/
def specSearchScore (query : String) (e : CodeElement) : Nat :=
  (if strIncludes (lowerStr e.core.name) (lowerStr query) then
    (if lowerStr e.core.name = lowerStr query then 100 else 50) else 0) +
  (match e.core.description with
   | some d => if strIncludes (lowerStr d) (lowerStr query) then 25 else 0
   | none => 0) +
  (if strIncludes (lowerStr e.core.scope) (lowerStr query) then 15 else 0) +
  10 * (match e.core.params with
        | some ps => (ps.filter (fun p => strIncludes (lowerStr p) (lowerStr query))).length
        | none => 0) +
  typeBoost e.core.type

/-- The parameter fold of performSearch adds 10 to the score for every
matching parameter. -/
theorem param_fold_fst (lowerQuery : String) (ps : List String) :
    ∀ acc : Nat × Nat × String,
      (ps.foldl (fun acc p =>
        if strIncludes (lowerStr p) lowerQuery then
          (acc.1 + 10, acc.2.1 + 1, if acc.2.2 = "" then "Parameter: " ++ p else acc.2.2)
        else acc) acc).1
      = acc.1 + 10 * (ps.filter (fun p => strIncludes (lowerStr p) lowerQuery)).length := by
  induction ps with
  | nil => intro acc; simp
  | cons p t ih =>
    intro acc
    rw [List.foldl_cons]
    by_cases hp : strIncludes (lowerStr p) lowerQuery
    · rw [if_pos hp, ih]
      simp only [List.filter_cons, hp]
      simp
      omega
    · rw [if_neg hp, ih]
      simp only [List.filter_cons]
      rw [if_neg (by simpa using hp)]

/-- The score component of the accumulation of performSearch equals the
additive formula of the specification. -/
theorem scoreParts_fst_eq_spec (query : String) (e : CodeElement) :
    (scoreParts (lowerStr query) e).1 = specSearchScore query e := by
  unfold scoreParts specSearchScore
  cases hdesc : e.core.description with
  | none =>
    cases hparams : e.core.params with
    | none =>
      by_cases hname : strIncludes (lowerStr e.core.name) (lowerStr query) <;>
        by_cases hscope : strIncludes (lowerStr e.core.scope) (lowerStr query) <;>
        simp [hdesc, hparams, hname, hscope]
    | some ps =>
      by_cases hname : strIncludes (lowerStr e.core.name) (lowerStr query) <;>
        by_cases hscope : strIncludes (lowerStr e.core.scope) (lowerStr query) <;>
        simp [hdesc, hparams, hname, hscope, param_fold_fst]
  | some d =>
    cases hparams : e.core.params with
    | none =>
      by_cases hname : strIncludes (lowerStr e.core.name) (lowerStr query) <;>
        by_cases hd : strIncludes (lowerStr d) (lowerStr query) <;>
        by_cases hscope : strIncludes (lowerStr e.core.scope) (lowerStr query) <;>
        simp [hdesc, hparams, hname, hd, hscope]
    | some ps =>
      by_cases hname : strIncludes (lowerStr e.core.name) (lowerStr query) <;>
        by_cases hd : strIncludes (lowerStr d) (lowerStr query) <;>
        by_cases hscope : strIncludes (lowerStr e.core.scope) (lowerStr query) <;>
        simp [hdesc, hparams, hname, hd, hscope, param_fold_fst]

/-- Every candidate result has a positive score, and its score is the
accumulated score of its own element. -/
theorem searchCandidatesIdx_mem (lowerQuery : String) :
    ∀ (es : List CodeElement) (i : Nat) (p : Nat × SearchResult),
      p ∈ searchCandidatesIdx lowerQuery i es →
      0 < p.2.score ∧ p.2.score = (scoreParts lowerQuery p.2.element).1 := by
  intro es
  induction es with
  | nil => intro i p hp; simp [searchCandidatesIdx] at hp
  | cons e t ih =>
    intro i p hp
    rw [searchCandidatesIdx] at hp
    cases hr : searchResultFor lowerQuery e with
    | some r =>
      rw [hr] at hp
      rcases List.mem_cons.mp hp with rfl | hp
      · simp only [searchResultFor] at hr
        split at hr
        · next hpos =>
          injection hr with hr
          subst hr
          exact ⟨hpos, rfl⟩
        · exact Option.noConfusion hr
      · exact ih (i + 1) p hp
    | none =>
      rw [hr] at hp
      exact ih (i + 1) p hp

/-- Candidate indices are bounded below by the running index. -/
theorem searchCandidatesIdx_ge (lowerQuery : String) :
    ∀ (es : List CodeElement) (i : Nat) (p : Nat × SearchResult),
      p ∈ searchCandidatesIdx lowerQuery i es → i ≤ p.1 := by
  intro es
  induction es with
  | nil => intro i p hp; simp [searchCandidatesIdx] at hp
  | cons e t ih =>
    intro i p hp
    rw [searchCandidatesIdx] at hp
    cases hr : searchResultFor lowerQuery e with
    | some r =>
      rw [hr] at hp
      rcases List.mem_cons.mp hp with rfl | hp
      · exact le_refl _
      · exact Nat.le_of_succ_le (ih (i + 1) p hp)
    | none =>
      rw [hr] at hp
      exact Nat.le_of_succ_le (ih (i + 1) p hp)

/-- Candidate indices are strictly increasing along the list (the scan
order of the elements). -/
theorem searchCandidatesIdx_pairwise (lowerQuery : String) :
    ∀ (es : List CodeElement) (i : Nat),
      List.Pairwise (fun p q : Nat × SearchResult => p.1 < q.1)
        (searchCandidatesIdx lowerQuery i es) := by
  intro es
  induction es with
  | nil => intro i; simp [searchCandidatesIdx]
  | cons e t ih =>
    intro i
    rw [searchCandidatesIdx]
    cases hr : searchResultFor lowerQuery e with
    | some r =>
      refine List.pairwise_cons.mpr ⟨?_, ih (i + 1)⟩
      intro q hq
      exact Nat.lt_of_succ_le (searchCandidatesIdx_ge lowerQuery t (i + 1) q hq)
    | none => exact ih (i + 1)

/-- The order a stable descending-score sort must realize: strictly
larger score first, and among equal scores the smaller scan index first. -/
def scoreIdxLex (a b : Nat × SearchResult) : Prop :=
  b.2.score < a.2.score ∨ (a.2.score = b.2.score ∧ a.1 < b.1)

/-- Inserting an element whose index is below every index of an already
lex-ordered list (the stable-insertion step) keeps the list lex-ordered. -/
theorem orderedInsert_scoreIdxLex (a : Nat × SearchResult) :
    ∀ (l : List (Nat × SearchResult)),
      (∀ b ∈ l, a.1 < b.1) → List.Pairwise scoreIdxLex l →
      List.Pairwise scoreIdxLex
        (List.orderedInsert (fun x y => y.2.score ≤ x.2.score) a l) := by
  intro l
  induction l with
  | nil => intro _ _; simp [scoreIdxLex]
  | cons b t ih =>
    intro hidx hl
    obtain ⟨hb, ht⟩ := List.pairwise_cons.mp hl
    by_cases hr : b.2.score ≤ a.2.score
    · rw [List.orderedInsert, if_pos hr]
      refine List.pairwise_cons.mpr ⟨?_, hl⟩
      intro c hc
      rcases List.mem_cons.mp hc with rfl | hc
      · rcases Nat.lt_or_ge c.2.score a.2.score with hlt | hge
        · exact Or.inl hlt
        · exact Or.inr ⟨by omega, hidx c (List.mem_cons_self _ _)⟩
      · rcases hb c hc with hlt | ⟨heq, -⟩
        · exact Or.inl (Nat.lt_of_lt_of_le hlt hr)
        · rcases Nat.lt_or_ge c.2.score a.2.score with hlt2 | hge2
          · exact Or.inl hlt2
          · have hoc : c.2.score ≤ a.2.score := heq ▸ hr
            exact Or.inr ⟨by omega, hidx c (List.mem_cons_of_mem _ hc)⟩
    · rw [List.orderedInsert, if_neg hr]
      push_neg at hr
      refine List.pairwise_cons.mpr ⟨?_, ?_⟩
      · intro c hc
        rcases (List.mem_orderedInsert _).mp hc with rfl | hc
        · exact Or.inl hr
        · exact hb c hc
      · exact ih (fun x hx => hidx x (List.mem_cons_of_mem _ hx)) ht

/-- Stably sorting a list with strictly increasing indices by descending
score yields the lexicographic order: descending score, ties in scan
order.  This is the stability property of the sort of performSearch. -/
theorem insertionSort_scoreIdxLex :
    ∀ (l : List (Nat × SearchResult)),
      List.Pairwise (fun p q : Nat × SearchResult => p.1 < q.1) l →
      List.Pairwise scoreIdxLex
        (List.insertionSort (fun x y => y.2.score ≤ x.2.score) l) := by
  intro l
  induction l with
  | nil => intro _; simp
  | cons a t ih =>
    intro h
    obtain ⟨ha, ht⟩ := List.pairwise_cons.mp h
    rw [List.insertionSort]
    refine orderedInsert_scoreIdxLex a _ ?_ (ih ht)
    intro b hb
    exact ha b ((List.perm_insertionSort _ t).mem_iff.mp hb)

/-- C2: for every query and element sequence, the search returns at most
20 results; every returned result has a strictly positive score equal to
the additive specification formula; the results are ordered by
non-increasing score; and the sort is stable: the index-annotated sorted
list is strictly ordered by descending score with ties ordered by the
original scan index, of which the returned list is the 20-prefix with the
annotation dropped. -/
theorem c2_search_contract :
    ∀ (query : String) (elements : List CodeElement),
      (performSearch query elements).length ≤ 20 ∧
      (∀ r ∈ performSearch query elements,
        0 < r.score ∧ r.score = specSearchScore query r.element) ∧
      List.Pairwise (fun a b : SearchResult => b.score ≤ a.score)
        (performSearch query elements) ∧
      List.Pairwise scoreIdxLex (performSearchIdx query elements) ∧
      performSearch query elements =
        ((performSearchIdx query elements).take 20).map Prod.snd := by
  intro query elements
  have hlex : List.Pairwise scoreIdxLex (performSearchIdx query elements) := by
    rw [performSearchIdx]
    split
    · exact List.Pairwise.nil
    · exact insertionSort_scoreIdxLex _
        (searchCandidatesIdx_pairwise (lowerStr query) elements 0)
  refine ⟨?_, ?_, ?_, hlex, rfl⟩
  · simp [performSearch]
  · intro r hr
    obtain ⟨p, hp, hsnd⟩ := List.mem_map.mp hr
    have hpS : p ∈ performSearchIdx query elements :=
      List.take_subset 20 _ hp
    rw [performSearchIdx] at hpS
    split at hpS
    · simp at hpS
    · have hcand : p ∈ searchCandidatesIdx (lowerStr query) 0 elements :=
        (List.perm_insertionSort _ _).mem_iff.mp hpS
      obtain ⟨hpos, hscore⟩ := searchCandidatesIdx_mem (lowerStr query) elements 0 p hcand
      subst hsnd
      exact ⟨hpos, hscore.trans (scoreParts_fst_eq_spec query p.2.element)⟩
  · refine List.Pairwise.map Prod.snd ?_ (hlex.sublist (List.take_sublist 20 _))
    intro a b hab
    rcases hab with hlt | ⟨heq, -⟩
    · exact Nat.le_of_lt hlt
    · exact Nat.le_of_eq heq.symm

/-- A concrete function element named add for the search witness. -/
def demoSearchElem : CodeElement :=
  .mk { id := "function-0", type := .function, name := "add", line := 1, column := 10
        endLine := 1, endColumn := 20, scope := "global", params := some ["a", "b"]
        returnType := none, visibility := none, isStatic := none, isAsync := some false
        description := some "Function with 2 parameters", complexity := some 30 } none

/-- Witness for C2: searching add over a one-element sequence returns a
result whose score is positive and equals the specification formula
(100 for the exact name match plus the function boost of 20). -/
theorem c2_search_contract_witness :
    ∃ r ∈ performSearch "add" [demoSearchElem],
      0 < r.score ∧ r.score = specSearchScore "add" r.element := by
  have h0 : 0 < (performSearch "add" [demoSearchElem]).length := by decide
  exact ⟨(performSearch "add" [demoSearchElem]).get ⟨0, h0⟩, List.get_mem _ _ _,
    (c2_search_contract "add" [demoSearchElem]).2.1 _ (List.get_mem _ _ _)⟩

/-- An element of the two scope-defining kinds. -/
def kindFC (e : CodeElement) : Prop :=
  e.core.type = ElemKind.function ∨ e.core.type = ElemKind.classK

/-- A scope name is resolved by a context: it is the global sentinel or
the name of a function or class element of the context. -/
def ScopeResolved (sc : String) (acc : List CodeElement) : Prop :=
  sc = "global" ∨ ∃ x ∈ acc, kindFC x ∧ x.core.name = sc

/-- Every element of the list has its scope resolved by the elements
before it (the given context followed by the earlier list elements). -/
def GoodFrom : List CodeElement → List CodeElement → Prop
  | _, [] => True
  | ctx, e :: l => ScopeResolved e.core.scope ctx ∧ GoodFrom (ctx ++ [e]) l

/-- Resolution is monotone in the context. -/
theorem scopeResolved_append (sc : String) (acc l : List CodeElement)
    (h : ScopeResolved sc acc) : ScopeResolved sc (acc ++ l) := by
  rcases h with h | ⟨x, hx, hfc, hn⟩
  · exact Or.inl h
  · exact Or.inr ⟨x, List.mem_append_left l hx, hfc, hn⟩

/-- Appending one element to a good list: the list stays good exactly when
the new element is resolved by everything before it. -/
theorem goodFrom_append :
    ∀ (l ctx : List CodeElement) (e : CodeElement),
      GoodFrom ctx (l ++ [e]) ↔ GoodFrom ctx l ∧ ScopeResolved e.core.scope (ctx ++ l) := by
  intro l
  induction l with
  | nil =>
    intro ctx e
    simp [GoodFrom]
  | cons f t ih =>
    intro ctx e
    show ScopeResolved f.core.scope ctx ∧ GoodFrom (ctx ++ [f]) (t ++ [e]) ↔ _
    rw [ih (ctx ++ [f]) e]
    constructor
    · rintro ⟨h1, h2, h3⟩
      exact ⟨⟨h1, h2⟩, by simpa [List.append_assoc] using h3⟩
    · rintro ⟨⟨h1, h2⟩, h3⟩
      exact ⟨h1, h2, by simpa [List.append_assoc] using h3⟩

/-- Reading a good list at an index: the element's scope is global or the
name of a function or class element occurring earlier (in the context or
the prefix before the index). -/
theorem goodFrom_get :
    ∀ (l ctx : List CodeElement), GoodFrom ctx l → ∀ (i : Nat) (hi : i < l.length),
      (l.get ⟨i, hi⟩).core.scope = "global" ∨
      ∃ e ∈ ctx ++ l.take i, kindFC e ∧ e.core.name = (l.get ⟨i, hi⟩).core.scope := by
  intro l
  induction l with
  | nil => intro ctx _ i hi; exact absurd hi (by simp)
  | cons f t ih =>
    intro ctx hg i hi
    obtain ⟨h1, h2⟩ := hg
    cases i with
    | zero =>
      rcases h1 with h | ⟨x, hx, hfc, hn⟩
      · exact Or.inl h
      · exact Or.inr ⟨x, by simpa using hx, hfc, hn⟩
    | succ i =>
      have := ih (ctx ++ [f]) h2 i (by simpa using Nat.lt_of_succ_lt_succ hi)
      rcases this with h | ⟨e, he, hfc, hn⟩
      · exact Or.inl h
      · refine Or.inr ⟨e, ?_, hfc, hn⟩
        simpa [List.append_assoc] using he

/-- The scan invariant threaded through the line loop: the accumulated
elements are scope-good, the current scope slot is resolved by them, all
line numbers are bounded, the accumulator is sorted by line, and every
element of the import kind carries the global scope. -/
def ScanInv (bound : Nat) (st : ScanState) : Prop :=
  GoodFrom [] st.acc ∧
  ScopeResolved st.currentScope st.acc ∧
  (∀ e ∈ st.acc, e.core.line ≤ bound) ∧
  List.Pairwise (fun a b : CodeElement => a.core.line ≤ b.core.line) st.acc ∧
  (∀ e ∈ st.acc, e.core.type = ElemKind.importK → e.core.scope = "global")

/-- The invariant is monotone in the line bound. -/
theorem scanInv_mono (b b' : Nat) (st : ScanState) (hb : b ≤ b')
    (h : ScanInv b st) : ScanInv b' st := by
  obtain ⟨h1, h2, h3, h4, h5⟩ := h
  exact ⟨h1, h2, fun e he => Nat.le_trans (h3 e he) hb, h4, h5⟩

/-- Pushing an element whose scope is the current slot or the global
sentinel, at the bound line, preserves the invariant (the scope slot is
unchanged). -/
theorem scanInv_push (bound : Nat) (st : ScanState) (e : CodeElement) (eid : Nat)
    (hscope : e.core.scope = st.currentScope ∨ e.core.scope = "global")
    (hline : e.core.line = bound)
    (himp : e.core.type = ElemKind.importK → e.core.scope = "global")
    (h : ScanInv bound st) :
    ScanInv bound { currentScope := st.currentScope, elementId := eid, acc := st.acc ++ [e] } := by
  obtain ⟨h1, h2, h3, h4, h5⟩ := h
  refine ⟨?_, ?_, ?_, ?_, ?_⟩
  · rw [goodFrom_append]
    refine ⟨h1, ?_⟩
    rcases hscope with hs | hs
    · rw [hs]
      simpa using h2
    · exact Or.inl hs
  · exact scopeResolved_append _ _ _ h2
  · intro x hx
    rcases List.mem_append.mp hx with hx | hx
    · exact h3 x hx
    · rw [List.mem_singleton.mp hx, hline]
  · rw [List.pairwise_append]
    refine ⟨h4, by simp, ?_⟩
    intro a ha b hb
    rw [List.mem_singleton.mp hb, hline]
    exact h3 a ha
  · intro x hx hximp
    rcases List.mem_append.mp hx with hx | hx
    · exact h5 x hx hximp
    · rw [List.mem_singleton.mp hx] at hximp ⊢
      exact himp hximp

/-- Pushing a function or class element in the current scope and making
its name the new scope slot preserves the invariant. -/
theorem scanInv_push_setScope (bound : Nat) (st : ScanState) (e : CodeElement) (eid : Nat)
    (hscope : e.core.scope = st.currentScope)
    (hkind : kindFC e)
    (hline : e.core.line = bound)
    (h : ScanInv bound st) :
    ScanInv bound { currentScope := e.core.name, elementId := eid, acc := st.acc ++ [e] } := by
  have himp : e.core.type = ElemKind.importK → e.core.scope = "global" := by
    intro hx
    rcases hkind with hk | hk <;> rw [hx] at hk <;> exact ElemKind.noConfusion hk
  have base := scanInv_push bound st e eid (Or.inl hscope) hline himp h
  obtain ⟨h1, -, h3, h4, h5⟩ := base
  refine ⟨h1, ?_, h3, h4, h5⟩
  exact Or.inr ⟨e, List.mem_append_right _ (List.mem_singleton_self e), hkind, rfl⟩

/-- The comment branch preserves the invariant. -/
theorem commentStep_inv (trimmed line : String) (idx : Nat) (st : ScanState)
    (h : ScanInv (idx + 1) st) : ScanInv (idx + 1) (commentStep trimmed line idx st) :=
  scanInv_push _ st _ _ (Or.inl rfl) rfl (fun hx => ElemKind.noConfusion hx) h

/-- The function branch either throws or preserves the invariant: it
returns normally only when its regex does not match (a match makes the
complexity call raise), and then the state is unchanged. -/
theorem functionStep_inv (trimmed line : String) (idx : Nat) (st : ScanState)
    (h : ScanInv (idx + 1) st) :
    ∀ st', functionStep trimmed line idx st = Except.ok st' → ScanInv (idx + 1) st' := by
  intro st' hok
  unfold functionStep at hok
  cases hm : matchFunction trimmed.data with
  | none =>
    rw [hm] at hok
    have heq : st = st' := Except.ok.inj hok
    exact heq ▸ h
  | some m =>
    rw [hm, calculateComplexity_error trimmed] at hok
    exact Except.noConfusion hok

/-- The class branch either throws or preserves the invariant; it returns
normally only when its regex does not match, leaving the state unchanged. -/
theorem classStep_inv (trimmed line : String) (idx : Nat) (st : ScanState)
    (h : ScanInv (idx + 1) st) :
    ∀ st', classStep trimmed line idx st = Except.ok st' → ScanInv (idx + 1) st' := by
  intro st' hok
  unfold classStep at hok
  cases hm : matchClass trimmed.data with
  | none =>
    rw [hm] at hok
    have heq : st = st' := Except.ok.inj hok
    exact heq ▸ h
  | some m =>
    rw [hm, calculateComplexity_error trimmed] at hok
    exact Except.noConfusion hok

/-- The variable branch preserves the invariant. -/
theorem variableStep_inv (trimmed line : String) (idx : Nat) (st : ScanState)
    (h : ScanInv (idx + 1) st) : ScanInv (idx + 1) (variableStep trimmed line idx st) := by
  unfold variableStep
  cases hm : matchVariable trimmed.data with
  | none => exact h
  | some m => exact scanInv_push _ st _ _ (Or.inl rfl) rfl (fun hx => ElemKind.noConfusion hx) h

/-- The import branch preserves the invariant (its element's scope is the
global sentinel by construction). -/
theorem importStep_inv (trimmed line : String) (idx : Nat) (st : ScanState)
    (h : ScanInv (idx + 1) st) : ScanInv (idx + 1) (importStep trimmed line idx st) := by
  unfold importStep
  cases hm : matchImport trimmed.data with
  | none => exact h
  | some m => exact scanInv_push _ st _ _ (Or.inr rfl) rfl (fun _ => rfl) h

/-- The export branch preserves the invariant. -/
theorem exportStep_inv (trimmed line : String) (idx : Nat) (st : ScanState)
    (h : ScanInv (idx + 1) st) : ScanInv (idx + 1) (exportStep trimmed line idx st) := by
  unfold exportStep
  cases hm : matchExport trimmed.data with
  | none => exact h
  | some m => exact scanInv_push _ st _ _ (Or.inl rfl) rfl (fun hx => ElemKind.noConfusion hx) h

/-- The loop branch either throws or preserves the invariant; it returns
normally only when its regex does not match, leaving the state unchanged. -/
theorem loopStep_inv (trimmed line : String) (idx : Nat) (st : ScanState)
    (h : ScanInv (idx + 1) st) :
    ∀ st', loopStep trimmed line idx st = Except.ok st' → ScanInv (idx + 1) st' := by
  intro st' hok
  unfold loopStep at hok
  cases hm : matchLoop trimmed.data with
  | none =>
    rw [hm] at hok
    have heq : st = st' := Except.ok.inj hok
    exact heq ▸ h
  | some m =>
    rw [hm, calculateComplexity_error trimmed] at hok
    exact Except.noConfusion hok

/-- The conditional branch either throws or preserves the invariant; it
returns normally only when its regex does not match, leaving the state
unchanged. -/
theorem condStep_inv (trimmed line : String) (idx : Nat) (st : ScanState)
    (h : ScanInv (idx + 1) st) :
    ∀ st', condStep trimmed line idx st = Except.ok st' → ScanInv (idx + 1) st' := by
  intro st' hok
  unfold condStep at hok
  cases hm : matchConditional trimmed.data with
  | none =>
    rw [hm] at hok
    have heq : st = st' := Except.ok.inj hok
    exact heq ▸ h
  | some m =>
    rw [hm, calculateComplexity_error trimmed] at hok
    exact Except.noConfusion hok

/-- One successful line of the scan preserves the invariant, moving the
line bound forward by one (a line on which a classifier throws yields no
state at all). -/
theorem parseLine_inv (line : String) (idx : Nat) (st : ScanState)
    (h : ScanInv idx st) :
    ∀ st', parseLine line idx st = Except.ok st' → ScanInv (idx + 1) st' := by
  intro st' hok
  have h1 : ScanInv (idx + 1) st := scanInv_mono idx (idx + 1) st (Nat.le_succ idx) h
  unfold parseLine at hok
  dsimp only at hok
  split at hok
  · split at hok
    · have heq : commentStep (jsTrim line) line idx st = st' := Except.ok.inj hok
      exact heq ▸ commentStep_inv _ line idx st h1
    · have heq : st = st' := Except.ok.inj hok
      exact heq ▸ h1
  · split at hok
    · exact Except.noConfusion hok
    · rename_i st1 hf
      split at hok
      · exact Except.noConfusion hok
      · rename_i st2 hc
        split at hok
        · exact Except.noConfusion hok
        · rename_i st6 hl
          exact condStep_inv _ line idx st6
            (loopStep_inv _ line idx _
              (exportStep_inv _ line idx _
                (importStep_inv _ line idx _
                  (variableStep_inv _ line idx _
                    (classStep_inv _ line idx st1
                      (functionStep_inv _ line idx st h1 st1 hf) st2 hc)))) st6 hl)
            st' hok

/-- The whole line loop, when it returns normally, preserves the
invariant for some final bound. -/
theorem parseLines_inv :
    ∀ (lines : List String) (idx : Nat) (st : ScanState), ScanInv idx st →
      ∀ stf, parseLines idx lines st = Except.ok stf → ∃ b, ScanInv b stf := by
  intro lines
  induction lines with
  | nil =>
    intro idx st h stf hok
    have heq : st = stf := Except.ok.inj hok
    exact ⟨idx, heq ▸ h⟩
  | cons l ls ih =>
    intro idx st h stf hok
    simp only [parseLines] at hok
    cases hp : parseLine l idx st with
    | error err =>
      rw [hp] at hok
      exact Except.noConfusion hok
    | ok st' =>
      rw [hp] at hok
      exact ih (idx + 1) st' (parseLine_inv l idx st h st' hp) stf hok

/-- A successful scan output is the final accumulated element list (the
final sort of the source is the identity because elements are pushed in
nondecreasing line order), it is scope-good, and its import elements
carry the global scope. -/
theorem parseCode_good (src : String) :
    ∀ elems, parseCode src = Except.ok elems →
      GoodFrom [] elems ∧
      (∀ e ∈ elems, e.core.type = ElemKind.importK → e.core.scope = "global") := by
  intro elems hok
  have hinit : ScanInv 0 { currentScope := "global", elementId := 0, acc := [] } :=
    ⟨trivial, Or.inl rfl, by simp, by simp, by simp⟩
  unfold parseCode at hok
  dsimp only at hok
  cases hp : parseLines 0 (jsSplit '\n' src)
      { currentScope := "global", elementId := 0, acc := [] } with
  | error err =>
    rw [hp] at hok
    exact Except.noConfusion hok
  | ok final =>
    rw [hp] at hok
    obtain ⟨b, h1, h2, h3, h4, h5⟩ :=
      parseLines_inv (jsSplit '\n' src) 0 _ hinit final hp
    have hinj : List.insertionSort (fun a b : CodeElement => a.core.line ≤ b.core.line)
        final.acc = elems :=
      Except.ok.inj hok
    have heq : elems = final.acc := by
      rw [← hinj]
      exact List.Sorted.insertionSort_eq h4
    rw [heq]
    exact ⟨h1, h5⟩

/-- C7: every element emitted by the scanner — the scan must return
normally to emit anything; a line reaching the function, class, loop or
conditional branch makes it throw instead — has a scope that is either
the global sentinel or the name of a function or class element emitted
earlier in the same scan pass (an element of the output prefix before
it). -/
theorem c7_scope_resolution (src : String) :
    ∀ (elems : List CodeElement), parseCode src = Except.ok elems →
    ∀ (i : Nat) (hi : i < elems.length),
      (elems.get ⟨i, hi⟩).core.scope = "global" ∨
      ∃ e ∈ elems.take i,
        (e.core.type = ElemKind.function ∨ e.core.type = ElemKind.classK) ∧
        e.core.name = (elems.get ⟨i, hi⟩).core.scope := by
  intro elems hok i hi
  have h := goodFrom_get elems [] (parseCode_good src elems hok).1 i hi
  simpa [kindFC] using h

/-- Witness for C7 at a concrete source on which the real scanner returns
normally (a lone variable line reaches no throwing branch): the scan
succeeds with one element, whose scope is resolved. -/
theorem c7_scope_resolution_witness :
    ∃ elems, parseCode "const x = 1" = Except.ok elems ∧
      ∃ hlen : 0 < elems.length,
        ((elems.get ⟨0, hlen⟩).core.scope = "global" ∨
         ∃ e ∈ elems.take 0,
           (e.core.type = ElemKind.function ∨ e.core.type = ElemKind.classK) ∧
           e.core.name = (elems.get ⟨0, hlen⟩).core.scope) := by
  have hlen0 : (match parseCode "const x = 1" with
      | Except.ok l => l.length
      | Except.error _ => 0) = 1 := by decide
  cases hp : parseCode "const x = 1" with
  | error err =>
    rw [hp] at hlen0
    have h0 : (0 : Nat) = 1 := hlen0
    exact absurd h0 (by decide)
  | ok elems =>
    rw [hp] at hlen0
    have h1 : elems.length = 1 := hlen0
    have hlen : 0 < elems.length := by omega
    exact ⟨elems, rfl, hlen, c7_scope_resolution "const x = 1" elems hp 0 hlen⟩

/-- C10: every import element emitted by the scanner (on a source where
the scan returns normally, the only way anything is emitted) carries the
global sentinel as its scope, regardless of the current enclosing scope
slot. -/
theorem c10_import_scope_global (src : String) :
    ∀ (elems : List CodeElement), parseCode src = Except.ok elems →
      ∀ e ∈ elems, e.core.type = ElemKind.importK → e.core.scope = "global" :=
  fun elems hok e he himp => (parseCode_good src elems hok).2 e he himp

/-- Witness for C10 at a concrete source made of one import line, on
which the real scanner returns normally (the import branch does not call
the throwing complexity counter). -/
theorem c10_import_scope_global_witness :
    ∃ elems, parseCode "import x from \"m\"" = Except.ok elems ∧
      ∃ e ∈ elems, e.core.type = ElemKind.importK ∧ e.core.scope = "global" := by
  have hlen0 : (match parseCode "import x from \"m\"" with
      | Except.ok l => l.length
      | Except.error _ => 0) = 1 := by decide
  have htype0 : (match parseCode "import x from \"m\"" with
      | Except.ok l => l.head!.core.type
      | Except.error _ => ElemKind.comment) = ElemKind.importK := by decide
  cases hp : parseCode "import x from \"m\"" with
  | error err =>
    rw [hp] at hlen0
    have h0 : (0 : Nat) = 1 := hlen0
    exact absurd h0 (by decide)
  | ok elems =>
    rw [hp] at hlen0 htype0
    have h1 : elems.length = 1 := hlen0
    have htype : elems.head!.core.type = ElemKind.importK := htype0
    have hne : elems ≠ [] := List.length_pos.mp (by omega)
    exact ⟨elems, rfl, elems.head!, List.head!_mem_self hne, htype,
      c10_import_scope_global "import x from \"m\"" elems hp elems.head!
        (List.head!_mem_self hne) htype⟩
